import Mathlib

/-!
# MySQL server detector: the handshake decoder

A shallow embedding of `mysql_script.go`: `readMySQLPacket`, `readNullTerminatedString`
and the handshake parse of `checkMySQL` (the part of `checkMySQL` that runs once
`readMySQLPacket` has handed over the payload).

Conventions of the embedding.

* A Go `[]byte` is a `List Byte`, a Go `string` built from bytes is a `List Byte`
  too (Go strings are byte sequences).
* The cursor `offset` and every index are natural numbers: in the source the cursor
  starts at `0` and is only ever increased.
* Values of Go type `int` that come out of the bit operations are integers wrapped
  to 64-bit two's complement (`wrapInt`).
* Indexing and slicing are checked, as in Go: an index or a slice bound out of
  range is a run-time panic, modelled by `none`.
* The connection is a finite byte stream: the bytes the peer delivers before the stream
  ends. Read deadlines are not part of the model.
* Standard output is the list of the lines printed, one `Line` for each
  `fmt.Println` / `fmt.Printf` call; `render` gives the bytes of a line.
-/

namespace MySQLDetector

/-- One byte of a payload. -/
abbrev Byte := Fin 256

/-! ## Go integer arithmetic -/

/-- Wrap an integer to Go's `int`, taken as 64-bit two's complement. -/
def wrapInt (x : Int) : Int := (x + 2 ^ 63) % 2 ^ 64 - 2 ^ 63

/-- The conversion `int(b)` of a byte. -/
def toInt (b : Byte) : Int := (b.val : Int)

/-- Go's `x << k` on `int`. -/
def shl (x : Int) (k : Nat) : Int := wrapInt (x * 2 ^ k)

/-- Go's `x | y` on `int`. -/
def bor (x y : Int) : Int := Int.lor x y

/-- The conversion `uint32(x)` of an `int`. -/
def toUint32 (x : Int) : Nat := (x % 2 ^ 32).toNat

/-- The conversion `uint16(x)` of an `int`. -/
def toUint16 (x : Int) : Nat := (x % 2 ^ 16).toNat

/-- The expression `int(payload[o]) | int(payload[o+1])<<8` that reads the two
capability halves and the status flags. -/
def readU16 (b0 b1 : Byte) : Int := bor (toInt b0) (shl (toInt b1) 8)

/-- The expression computing `connID` from the four bytes at the cursor. -/
def connID (b0 b1 b2 b3 : Byte) : Int :=
  bor (bor (bor (toInt b0) (shl (toInt b1) 8)) (shl (toInt b2) 16)) (shl (toInt b3) 24)

/-- The expression `capabilityFlagsLow | (capabilityFlagsHigh << 16)`. -/
def capabilityFlags (capabilityFlagsLow capabilityFlagsHigh : Int) : Int :=
  bor capabilityFlagsLow (shl capabilityFlagsHigh 16)

/-- The length of auth-plugin-data-part-2: `authPluginDataLen - 8`, raised to 13
when it is smaller. -/
def authPluginDataPart2Len (authPluginDataLen : Int) : Int :=
  let authPluginDataPart2Len := authPluginDataLen - 8
  if authPluginDataPart2Len < 13 then 13 else authPluginDataPart2Len

/-! ## The character set table -/

/-- The map literal `charSetMap`; a key that is absent has no entry. -/
def charSetMap (c : Byte) : Option String :=
  if c = 1 then some "big5_chinese_ci"
  else if c = 8 then some "latin1_swedish_ci"
  else if c = 33 then some "utf8_general_ci"
  else if c = 45 then some "utf8mb4_general_ci"
  else if c = 63 then some "binary"
  else if c = 83 then some "utf8mb4_0900_ai_ci"
  else if c = 192 then some "utf8mb4_unicode_520_ci"
  else if c = 255 then some "utf8mb4_0900_ai_ci"
  else none

/-- The name displayed for a character set: the Go lookup `charSetMap[characterSet]`
yields the empty string for an absent key, and the empty string is replaced by
`"unknown"`. -/
def charSetName (characterSet : Byte) : String :=
  let charSetName := (charSetMap characterSet).getD ""
  if charSetName = "" then "unknown" else charSetName

/-! ## Output -/

/-- The lines the parse can print, one constructor for each print statement. -/
inductive Line where
  /-- Prints `Unable to detect MySQL. Handshake payload too short`. -/
  | payloadTooShort
  /-- Prints `Unable to detect MySQL. Unsupported protocol version? %d`. -/
  | unsupportedVersion (protocolVersion : Byte)
  /-- Prints `Unable to detect MySQL. Unexpected end of payload while reading connection id`. -/
  | connIdTooShort
  /-- Prints `MySQL Server DETECTED`. -/
  | detected
  /-- Prints `Protocol Version: %d`. -/
  | protocolVersion (protocolVersion : Byte)
  /-- Prints `Server Version: %s`. -/
  | serverVersion (serverVersion : List Byte)
  /-- Prints `Connection ID: %d`. -/
  | connectionId (connID : Int)
  /-- Prints `Unexpected end while reading capability flags low`. -/
  | capLowTooShort
  /-- Prints `Unexpected end while reading character set`. -/
  | charSetTooShort
  /-- Prints `Unexpected end while reading status flags`. -/
  | statusTooShort
  /-- Prints `Unexpected end while reading capability flags high`. -/
  | capHighTooShort
  /-- Prints `Unexpected end while reading auth plugin data length`. -/
  | authLenTooShort
  /-- Prints `--- MySQL 4.x+ Handshake Info ---`. -/
  | handshakeInfo
  /-- Prints `Character Set: %d (%s)`. -/
  | characterSet (characterSet : Byte) (charSetName : String)
  /-- Prints `Capabilities (combined): %032b`, of a `uint32`. -/
  | capabilities (capabilityFlags : Nat)
  /-- Prints `Status Flags: %016b`, of a `uint16`. -/
  | statusFlags (statusFlags : Nat)
  /-- Prints `Auth Plugin Name: %s`. -/
  | authPluginName (pluginName : List Byte)
  deriving DecidableEq

/-- The bytes of a string literal of the source (all of them are ASCII). -/
def ascii (s : String) : List Byte := s.data.map fun c => Fin.ofNat c.toNat

/-- The verb `%d` on a non-negative number. -/
def decimal (n : Nat) : List Byte := (Nat.toDigits 10 n).map fun c => Fin.ofNat c.toNat

/-- The verb `%d` on an `int`. -/
def decimalInt (x : Int) : List Byte :=
  if x < 0 then ascii "-" ++ decimal x.natAbs else decimal x.natAbs

/-- The verbs `%032b` and `%016b`: binary digits, padded with zeros on the left up
to `width`. -/
def binary (width n : Nat) : List Byte :=
  let digits := (Nat.toDigits 2 n).map fun c => (Fin.ofNat c.toNat : Byte)
  List.replicate (width - digits.length) (Fin.ofNat '0'.toNat) ++ digits

/-- The bytes written to standard output for one line, newline included. -/
def render : Line → List Byte
  | .payloadTooShort => ascii "Unable to detect MySQL. Handshake payload too short\n"
  | .unsupportedVersion v =>
      ascii "Unable to detect MySQL. Unsupported protocol version? " ++ decimal v.val ++ ascii "\n"
  | .connIdTooShort =>
      ascii "Unable to detect MySQL. Unexpected end of payload while reading connection id\n"
  | .detected => ascii "MySQL Server DETECTED\n"
  | .protocolVersion v => ascii "Protocol Version: " ++ decimal v.val ++ ascii "\n"
  | .serverVersion s => ascii "Server Version: " ++ s ++ ascii "\n"
  | .connectionId c => ascii "Connection ID: " ++ decimalInt c ++ ascii "\n"
  | .capLowTooShort => ascii "Unexpected end while reading capability flags low\n"
  | .charSetTooShort => ascii "Unexpected end while reading character set\n"
  | .statusTooShort => ascii "Unexpected end while reading status flags\n"
  | .capHighTooShort => ascii "Unexpected end while reading capability flags high\n"
  | .authLenTooShort => ascii "Unexpected end while reading auth plugin data length\n"
  | .handshakeInfo => ascii "--- MySQL 4.x+ Handshake Info ---\n"
  | .characterSet c name =>
      ascii "Character Set: " ++ decimal c.val ++ ascii " (" ++ ascii name ++ ascii ")\n"
  | .capabilities c => ascii "Capabilities (combined): " ++ binary 32 c ++ ascii "\n"
  | .statusFlags s => ascii "Status Flags: " ++ binary 16 s ++ ascii "\n"
  | .authPluginName p => ascii "Auth Plugin Name: " ++ p ++ ascii "\n"

/-- Everything written to standard output by a list of lines. -/
def stdout (out : List Line) : List Byte := (out.map render).flatten

/-! ## `readNullTerminatedString` -/

/-- The loop `for end < len(payload) && payload[end] != 0 { end++ }`, started at
`end_`; the result is the final value of `end`. Each iteration increases `end`, so
`len(payload) + 1` rounds are always enough; `none` is a panic of the index
expression `payload[end]` (or an exhausted round budget). -/
def scanNul (payload : List Byte) : Nat → Nat → Option Nat
  | 0, _ => none
  | rounds + 1, end_ =>
    if end_ < payload.length then
      match payload[end_]? with
      | none => none
      | some b => if b ≠ 0 then scanNul payload rounds (end_ + 1) else some end_
    else some end_

/-- The slice expression `payload[lo:hi]`, which panics unless
`lo <= hi <= len(payload)`. -/
def slice (payload : List Byte) (lo hi : Nat) : Option (List Byte) :=
  if lo ≤ hi ∧ hi ≤ payload.length then some ((payload.drop lo).take (hi - lo)) else none

/-- The function `readNullTerminatedString(payload, offset)`: the string and the
new offset, or `none` for a panic. -/
def readNullTerminatedString (payload : List Byte) (offset : Nat) :
    Option (List Byte × Nat) :=
  if offset ≥ payload.length then some ([], offset)
  else
    (scanNul payload (payload.length + 1) offset).bind fun end_ =>
    (slice payload offset end_).bind fun s =>
    let end_ := if end_ < payload.length then end_ + 1 else end_
    some (s, end_)

/-! ## The parse in `checkMySQL` -/

/-- The parse of the handshake payload in `checkMySQL` (from `offset := 0` to the
end of the function): the lines printed, or `none` for a panic. -/
def checkMySQL_parse (payload : List Byte) : Option (List Line) :=
  let offset := 0
  if payload.length < 1 then some [Line.payloadTooShort] else
  match payload[offset]? with
  | none => none
  | some protocolVersion =>
  if protocolVersion < 9 then some [Line.unsupportedVersion protocolVersion] else
  let offset := offset + 1
  match readNullTerminatedString payload offset with
  | none => none
  | some (serverVersion, newOff) =>
  let offset := newOff
  if offset + 4 > payload.length then some [Line.connIdTooShort] else
  match payload[offset]? with
  | none => none
  | some c0 =>
  match payload[offset + 1]? with
  | none => none
  | some c1 =>
  match payload[offset + 2]? with
  | none => none
  | some c2 =>
  match payload[offset + 3]? with
  | none => none
  | some c3 =>
  let connID := connID c0 c1 c2 c3
  let offset := offset + 4
  let out := [Line.detected, Line.protocolVersion protocolVersion,
    Line.serverVersion serverVersion, Line.connectionId connID]
  if protocolVersion = 9 then some out else
  -- skip 8 bytes of auth-plugin-data-part-1
  let offset := offset + 8
  -- skip 1 filler byte
  let offset := offset + 1
  -- capability flags (low 2 bytes)
  if offset + 2 > payload.length then some (out ++ [Line.capLowTooShort]) else
  match payload[offset]? with
  | none => none
  | some l0 =>
  match payload[offset + 1]? with
  | none => none
  | some l1 =>
  let capabilityFlagsLow := readU16 l0 l1
  let offset := offset + 2
  -- character set
  if offset + 1 > payload.length then some (out ++ [Line.charSetTooShort]) else
  match payload[offset]? with
  | none => none
  | some characterSet =>
  let offset := offset + 1
  -- status flags
  if offset + 2 > payload.length then some (out ++ [Line.statusTooShort]) else
  match payload[offset]? with
  | none => none
  | some s0 =>
  match payload[offset + 1]? with
  | none => none
  | some s1 =>
  let statusFlags := readU16 s0 s1
  let offset := offset + 2
  -- capability flags (high 2 bytes)
  if offset + 2 > payload.length then some (out ++ [Line.capHighTooShort]) else
  match payload[offset]? with
  | none => none
  | some h0 =>
  match payload[offset + 1]? with
  | none => none
  | some h1 =>
  let capabilityFlagsHigh := readU16 h0 h1
  let capabilityFlags := capabilityFlags capabilityFlagsLow capabilityFlagsHigh
  let offset := offset + 2
  -- auth-plugin-data length
  if offset + 1 > payload.length then some (out ++ [Line.authLenTooShort]) else
  match payload[offset]? with
  | none => none
  | some a =>
  let authPluginDataLen := toInt a
  let offset := offset + 1
  -- skip 10 reserved bytes
  let offset := offset + 10
  let pluginName : Option (List Byte) :=
    if authPluginDataLen ≠ 0 then
      -- skip auth-plugin-data-part-2
      let offset := offset + (authPluginDataPart2Len authPluginDataLen).toNat
      match readNullTerminatedString payload offset with
      | none => none
      | some (pn, _) => some pn
    else some (ascii "N/A")
  match pluginName with
  | none => none
  | some pluginName =>
  some (out ++ [Line.handshakeInfo,
    Line.characterSet characterSet (charSetName characterSet),
    Line.capabilities (toUint32 capabilityFlags),
    Line.statusFlags (toUint16 statusFlags),
    Line.authPluginName pluginName])

/-! ## `readMySQLPacket` -/

/-- The errors `io.ReadFull` returns on a stream that ends early: `io.EOF` when no byte
at all was read, `io.ErrUnexpectedEOF` when the stream ends after some of them. -/
inductive ReadError where
  /-- Stands for `io.EOF`. -/
  | eof
  /-- Stands for `io.ErrUnexpectedEOF`. -/
  | unexpectedEOF
  deriving DecidableEq

/-- The connection, as a finite byte stream: the bytes the peer still delivers before the
stream ends, and the sizes of the reads asked of it so far, oldest first. -/
structure Conn where
  /-- The bytes not yet consumed. -/
  pending : List Byte
  /-- The sizes of the `io.ReadFull` calls made so far. -/
  reads : List Nat
  deriving DecidableEq

/-- The call `io.ReadFull(conn, buf)` with `len(buf) = n`: the `n` next bytes, consumed in
order, or an error when the stream ends first (what was left is consumed). -/
def readFull (conn : Conn) (n : Nat) : Except ReadError (List Byte) × Conn :=
  if n ≤ conn.pending.length then
    (.ok (conn.pending.take n), { pending := conn.pending.drop n, reads := conn.reads ++ [n] })
  else
    (.error (if conn.pending.length = 0 then .eof else .unexpectedEOF),
      { pending := [], reads := conn.reads ++ [n] })

/-- The errors of `readMySQLPacket`, one for each `fmt.Errorf`. -/
inductive PacketError where
  /-- Stands for `reading header: %w`. -/
  | readingHeader (err : ReadError)
  /-- Stands for `invalid length: %d`. -/
  | invalidLength (length : Int)
  /-- Stands for `reading payload: %w`. -/
  | readingPayload (err : ReadError)
  deriving DecidableEq

/-- The expression `int(header[0]) | int(header[1])<<8 | int(header[2])<<16` computing
`length`. The header is a buffer of four bytes, so the three indices are in range. -/
def packetLength (header : List Byte) : Int :=
  bor (bor (toInt (header.getD 0 0)) (shl (toInt (header.getD 1 0)) 8))
    (shl (toInt (header.getD 2 0)) 16)

/-- The function `readMySQLPacket(conn)`: the payload or the error, and the connection
after the call. -/
def readMySQLPacket (conn : Conn) : Except PacketError (List Byte) × Conn :=
  match readFull conn 4 with
  | (.error err, conn) => (.error (.readingHeader err), conn)
  | (.ok header, conn) =>
    let length := packetLength header
    if length ≤ 0 then (.error (.invalidLength length), conn)
    else
      match readFull conn length.toNat with
      | (.error err, conn) => (.error (.readingPayload err), conn)
      | (.ok payload, conn) => (.ok payload, conn)

/-! ## Definitions used in the statements and proofs -/

/-- The text before the first zero byte of a byte sequence (the whole sequence when it
holds no zero byte). -/
def untilNul : List Byte → List Byte
  | [] => []
  | b :: l => if b = 0 then [] else b :: untilNul l

/-- The byte at index `i`, and `0` past the end. -/
def byteAt (payload : List Byte) (i : Nat) : Byte := payload.getD i 0

/-- The four lines printed once the connection id is read, for a cursor `s` right
after the server version. -/
def headerLines (payload : List Byte) (v : Byte) (sv : List Byte) (s : Nat) : List Line :=
  [Line.detected, Line.protocolVersion v, Line.serverVersion sv,
    Line.connectionId (connID (byteAt payload s) (byteAt payload (s + 1))
      (byteAt payload (s + 2)) (byteAt payload (s + 3)))]

/-- The plugin name printed, for a cursor `s` right after the server version. -/
def pluginNameAt (payload : List Byte) (s : Nat) : List Byte :=
  if toInt (byteAt payload (s + 20)) ≠ 0 then
    untilNul (payload.drop
      (s + 31 + (authPluginDataPart2Len (toInt (byteAt payload (s + 20)))).toNat))
  else ascii "N/A"

/-- The five lines of the final report, for a cursor `s` right after the server
version. -/
def infoLines (payload : List Byte) (s : Nat) : List Line :=
  [Line.handshakeInfo,
    Line.characterSet (byteAt payload (s + 15)) (charSetName (byteAt payload (s + 15))),
    Line.capabilities (toUint32 (capabilityFlags
      (readU16 (byteAt payload (s + 13)) (byteAt payload (s + 14)))
      (readU16 (byteAt payload (s + 18)) (byteAt payload (s + 19))))),
    Line.statusFlags (toUint16 (readU16 (byteAt payload (s + 16)) (byteAt payload (s + 17)))),
    Line.authPluginName (pluginNameAt payload s)]

/-- The lines printed after the header lines when the protocol version is above 9, by
the number of bytes after the server version. -/
def extendedLines (payload : List Byte) (s : Nat) : List Line :=
  if payload.length < s + 15 then [Line.capLowTooShort]
  else if payload.length < s + 16 then [Line.charSetTooShort]
  else if payload.length < s + 18 then [Line.statusTooShort]
  else if payload.length < s + 20 then [Line.capHighTooShort]
  else if payload.length < s + 21 then [Line.authLenTooShort]
  else infoLines payload s

/-- A closed form of what the parse prints for a protocol version of at least 9, by the
number of bytes after the server version; `checkMySQL_parse_eq_report` shows the parse
prints exactly this. -/
def report (payload : List Byte) (v : Byte) (sv : List Byte) (s : Nat) : List Line :=
  if payload.length < s + 4 then [Line.connIdTooShort]
  else if v = 9 then headerLines payload v sv s
  else headerLines payload v sv s ++ extendedLines payload s

/-- The two bytes of a 16-bit value, least significant first. -/
def le16 (n : Nat) : List Byte := [Fin.ofNat (n % 256), Fin.ofNat (n / 256 % 256)]

/-- The four bytes of a 32-bit value, least significant first. -/
def le32 (n : Nat) : List Byte :=
  [Fin.ofNat (n % 256), Fin.ofNat (n / 256 % 256), Fin.ofNat (n / 65536 % 256),
    Fin.ofNat (n / 16777216 % 256)]

/-- The synthetic handshake payload of the round-trip property, field by field in wire
order. The repository has no encoder: this is the payload the property is stated
about, with the capability value split into its low and high 16-bit halves. -/
def encodeHandshake (protocolVersion : Byte) (serverVersion : List Byte) (connectionId : Nat)
    (nonce : List Byte) (filler : Byte) (capabilities : Nat) (characterSet : Byte)
    (status : Nat) (authPluginDataLen : Byte) (reserved part2 pluginName : List Byte) :
    List Byte :=
  [protocolVersion] ++ serverVersion ++ [0] ++ le32 connectionId ++ nonce ++ [filler] ++
    le16 (capabilities % 65536) ++ [characterSet] ++ le16 status ++
    le16 (capabilities / 65536) ++ [authPluginDataLen] ++ reserved ++ part2 ++
    pluginName ++ [0]

/-- The value of the three length bytes of a header, least significant first. -/
def headerLength (stream : List Byte) : Nat :=
  (byteAt stream 0).val + 256 * (byteAt stream 1).val + 65536 * (byteAt stream 2).val

/-- The error lines of the parse: the too-short error of each field and the
unsupported-version error. -/
def isDecodeError : Line → Bool
  | .payloadTooShort => true
  | .unsupportedVersion _ => true
  | .connIdTooShort => true
  | .capLowTooShort => true
  | .charSetTooShort => true
  | .statusTooShort => true
  | .capHighTooShort => true
  | .authLenTooShort => true
  | _ => false

/-- The error lines printed before the detection line is reached: the too-short error
of the version and of the connection id, and the unsupported-version error. -/
def isEarlyError : Line → Bool
  | .payloadTooShort => true
  | .unsupportedVersion _ => true
  | .connIdTooShort => true
  | _ => false

/-- The text of the detection line, without the newline. -/
def detectedText : List Byte := ascii "MySQL Server DETECTED"

/-! ## Lemmas -/

/-- A non-zero first byte belongs to the text. -/
theorem untilNul_cons_ne {b : Byte} (hb : b ≠ 0) (l : List Byte) :
    untilNul (b :: l) = b :: untilNul l := by
  simp [untilNul, hb]

/-- A zero first byte ends the text at once. -/
theorem untilNul_zero_cons (l : List Byte) : untilNul (0 :: l) = [] := by
  simp [untilNul]

/-- The text is a prefix of the sequence. -/
theorem take_untilNul_length (l : List Byte) : l.take (untilNul l).length = untilNul l := by
  induction l with
  | nil => rfl
  | cons b l ih =>
    by_cases hb : b = 0
    · simp [untilNul, hb]
    · simp [untilNul, hb, ih]

/-- The text is no longer than the sequence. -/
theorem untilNul_length_le (l : List Byte) : (untilNul l).length ≤ l.length := by
  induction l with
  | nil => simp [untilNul]
  | cons b l ih =>
    by_cases hb : b = 0
    · simp [untilNul, hb]
    · simp [untilNul, hb]; omega

/-- When the first zero byte is at index `j`, the text is the first `j` bytes. -/
theorem untilNul_eq_take (l : List Byte) :
    ∀ j : Nat, l[j]? = some 0 → (∀ i : Nat, i < j → l[i]? ≠ some 0) → untilNul l = l.take j := by
  induction l with
  | nil => intro j hj; simp at hj
  | cons b l ih =>
    intro j hj hmin
    cases j with
    | zero =>
      simp only [List.getElem?_cons_zero, Option.some.injEq] at hj
      simp [untilNul, hj]
    | succ j =>
      have hb : b ≠ 0 := by
        intro hb
        exact hmin 0 (Nat.succ_pos j) (by simp [hb])
      rw [untilNul_cons_ne hb, List.take_succ_cons]
      congr 1
      refine ih j (by simpa using hj) ?_
      intro i hi
      have := hmin (i + 1) (by omega)
      simpa using this

/-- Without a zero byte the text is the whole sequence. -/
theorem untilNul_eq_self (l : List Byte) (h : ∀ i : Nat, l[i]? ≠ some 0) : untilNul l = l := by
  induction l with
  | nil => rfl
  | cons b l ih =>
    have hb : b ≠ 0 := by
      intro hb
      exact h 0 (by simp [hb])
    rw [untilNul_cons_ne hb]
    congr 1
    refine ih ?_
    intro i
    have := h (i + 1)
    simpa using this

/-- The text holds no zero byte. -/
theorem zero_not_mem_untilNul (l : List Byte) : (0 : Byte) ∉ untilNul l := by
  induction l with
  | nil => simp [untilNul]
  | cons b l ih =>
    by_cases hb : b = 0
    · simp [untilNul, hb]
    · rw [untilNul_cons_ne hb]
      simp only [List.mem_cons, not_or]
      exact ⟨fun h => hb h.symm, ih⟩

/-- The text of a sequence that starts with a zero-free text followed by a zero byte. -/
theorem untilNul_append_zero (sv rest : List Byte) (hsv : (0 : Byte) ∉ sv) :
    untilNul (sv ++ 0 :: rest) = sv := by
  induction sv with
  | nil => simp [untilNul]
  | cons b l ih =>
    simp only [List.mem_cons, not_or] at hsv
    have hb : b ≠ 0 := fun h => hsv.1 h.symm
    rw [List.cons_append, untilNul_cons_ne hb, ih hsv.2]

/-- The scanning loop, given enough rounds, stops at the first zero byte at or after its start, or at the end of the payload. -/
theorem scanNul_eq (payload : List Byte) :
    ∀ (rounds end_ : Nat), end_ ≤ payload.length → payload.length - end_ < rounds →
      scanNul payload rounds end_ = some (end_ + (untilNul (payload.drop end_)).length) := by
  intro rounds
  induction rounds with
  | zero => intro e _ h; omega
  | succ n ih =>
    intro e hle hr
    unfold scanNul
    by_cases he : e < payload.length
    · have hd : payload.drop e = payload[e] :: payload.drop (e + 1) := List.drop_eq_getElem_cons he
      simp only [he, if_true, List.getElem?_eq_getElem he, hd]
      by_cases hb : payload[e] = 0
      · simp [hb, untilNul]
      · simp only [ne_eq, hb, not_false_eq_true, if_true]
        rw [ih (e + 1) (by omega) (by omega), untilNul_cons_ne hb, List.length_cons]
        congr 1
        omega
    · have : e = payload.length := by omega
      subst this
      simp [untilNul]

/-- A closed form of `readNullTerminatedString`: it never panics, returns the text before the first zero byte from `offset` on, and the cursor after the terminator when there is one. -/
theorem readNullTerminatedString_eq (payload : List Byte) (offset : Nat) :
    readNullTerminatedString payload offset =
      some (untilNul (payload.drop offset),
        if offset + (untilNul (payload.drop offset)).length < payload.length
        then offset + (untilNul (payload.drop offset)).length + 1
        else max offset payload.length) := by
  unfold readNullTerminatedString
  by_cases h : offset ≥ payload.length
  · have hd : payload.drop offset = [] := List.drop_eq_nil_of_le h
    rw [if_pos h, hd]
    simp only [untilNul, List.length_nil, Nat.add_zero]
    rw [if_neg (by omega)]
    congr 2
    omega
  · have hlen := untilNul_length_le (payload.drop offset)
    rw [List.length_drop] at hlen
    rw [if_neg h, scanNul_eq payload _ offset (by omega) (by omega)]
    simp only [Option.some_bind, Option.bind_eq_bind, slice]
    rw [if_pos (by omega)]
    simp only [Option.some_bind, Nat.add_sub_cancel_left, take_untilNul_length]
    congr 2
    split <;> omega

/-- When the first zero byte at or after `offset` is at index `k`, the string read is `payload[offset..k)` and the new cursor is `k + 1`. -/
theorem readNullTerminatedString_found (payload : List Byte) (offset k : Nat)
    (hoff : offset ≤ k) (hk : payload[k]? = some 0)
    (hmin : ∀ i : Nat, offset ≤ i → i < k → payload[i]? ≠ some 0) :
    k < payload.length ∧
    readNullTerminatedString payload offset =
      some ((payload.drop offset).take (k - offset), k + 1) ∧
    (0 : Byte) ∉ (payload.drop offset).take (k - offset) := by
  have hklt : k < payload.length := by
    by_contra hc
    rw [List.getElem?_eq_none (by omega)] at hk
    exact absurd hk (by simp)
  have hu : untilNul (payload.drop offset) = (payload.drop offset).take (k - offset) := by
    refine untilNul_eq_take _ (k - offset) ?_ ?_
    · rw [List.getElem?_drop, Nat.add_sub_cancel' hoff]
      exact hk
    · intro i hi
      rw [List.getElem?_drop]
      exact hmin (offset + i) (by omega) (by omega)
  refine ⟨hklt, ?_, ?_⟩
  · rw [readNullTerminatedString_eq, hu]
    have hl : ((payload.drop offset).take (k - offset)).length = k - offset := by
      rw [List.length_take, List.length_drop]
      omega
    rw [hl, if_pos (by omega)]
    congr 2
    omega
  · rw [← hu]
    exact zero_not_mem_untilNul _

/-- Without a zero byte from `offset` on, the string read is the remainder of the payload
and the new cursor is the larger of `offset` and the length of the payload. -/
theorem readNullTerminatedString_of_no_nul (payload : List Byte) (offset : Nat)
    (h : ∀ i : Nat, offset ≤ i → payload[i]? ≠ some 0) :
    readNullTerminatedString payload offset =
      some (payload.drop offset, max offset payload.length) := by
  have hu : untilNul (payload.drop offset) = payload.drop offset := by
    refine untilNul_eq_self _ ?_
    intro i
    rw [List.getElem?_drop]
    exact h (offset + i) (by omega)
  rw [readNullTerminatedString_eq, hu, List.length_drop, if_neg (by omega)]

/-- Reading the server version of a payload that is a version byte, a zero-free text and a zero byte. -/
theorem readNullTerminatedString_one (payload : List Byte) (v : Byte) (sv rest : List Byte)
    (hp : payload = v :: (sv ++ 0 :: rest)) (hsv : (0 : Byte) ∉ sv) :
    readNullTerminatedString payload 1 = some (sv, sv.length + 2) := by
  subst hp
  rw [readNullTerminatedString_eq]
  simp only [List.drop_succ_cons, List.drop_zero, untilNul_append_zero sv rest hsv,
    List.length_cons, List.length_append]
  rw [if_pos (by omega)]
  congr 2
  omega

/-- A checked read at an index in range succeeds. -/
theorem getElem?_eq_byteAt {payload : List Byte} {i : Nat} (h : i < payload.length) :
    payload[i]? = some (byteAt payload i) := by
  simp [byteAt, List.getD_eq_getElem?_getD, List.getElem?_eq_getElem h]

/-- Reading past a prefix of known length. -/
theorem byteAt_append_right (A B : List Byte) (n k : Nat) (h : A.length = n) :
    byteAt (A ++ B) (n + k) = byteAt B k := by
  subst h
  simp [byteAt, List.getD_eq_getElem?_getD, List.getElem?_append_right]

/-- Reading past a prefix, with the index given by an equation. -/
theorem byteAt_append_at (A B : List Byte) (i k : Nat) (h : i = A.length + k) :
    byteAt (A ++ B) i = byteAt B k := by
  subst h
  exact byteAt_append_right A B _ k rfl

/-- The byte made from a number below 256 has that value. -/
theorem ofNat_val_of_lt {n : Nat} (h : n < 256) : ((Fin.ofNat n : Byte)).val = n := by
  simp [Fin.ofNat, Nat.mod_eq_of_lt h]

/-- Wrapping leaves a non-negative value below `2 ^ 63` alone. -/
theorem wrapInt_eq_self {x : Int} (h0 : 0 ≤ x) (h1 : x < 2 ^ 63) : wrapInt x = x := by
  unfold wrapInt
  omega

/-- The conversion `int(b)` is the value of the byte. -/
theorem toInt_eq (b : Byte) : toInt b = ((b.val : Nat) : Int) := rfl

/-- Bitwise or of two non-negative values. -/
theorem bor_natCast (m n : Nat) : bor (m : Int) (n : Int) = ((m ||| n : Nat) : Int) := rfl

/-- A left shift that stays below `2 ^ 63` is a multiplication. -/
theorem shl_natCast (n k : Nat) (h : n * 2 ^ k < 2 ^ 63) :
    shl (n : Int) k = ((n * 2 ^ k : Nat) : Int) := by
  unfold shl
  rw [wrapInt_eq_self]
  · push_cast; rfl
  · positivity
  · exact_mod_cast h

/-- Bitwise or with a value shifted past all the bits of `a` is addition. -/
theorem lor_mul_eq_add {a : Nat} (b i : Nat) (ha : a < 2 ^ i) :
    a ||| b * 2 ^ i = a + b * 2 ^ i := by
  rw [Nat.lor_comm, Nat.mul_comm b, ← Nat.mul_add_lt_is_or ha, Nat.add_comm]

/-- The two-byte read is the little-endian value of the bytes. -/
theorem readU16_eq (b0 b1 : Byte) :
    readU16 b0 b1 = ((b0.val + 256 * b1.val : Nat) : Int) := by
  have h0 := b0.isLt
  have h1 := b1.isLt
  unfold readU16
  rw [toInt_eq, toInt_eq, shl_natCast _ _ (by omega), bor_natCast,
    lor_mul_eq_add _ _ (by omega)]
  congr 1
  omega

/-- The four-byte read is the little-endian value of the bytes. -/
theorem connID_eq (b0 b1 b2 b3 : Byte) :
    connID b0 b1 b2 b3 =
      ((b0.val + 256 * b1.val + 65536 * b2.val + 16777216 * b3.val : Nat) : Int) := by
  have h0 := b0.isLt
  have h1 := b1.isLt
  have h2 := b2.isLt
  have h3 := b3.isLt
  unfold connID
  rw [toInt_eq, toInt_eq, toInt_eq, toInt_eq, shl_natCast _ _ (by omega),
    shl_natCast _ _ (by omega), shl_natCast _ _ (by omega), bor_natCast, bor_natCast,
    bor_natCast]
  have e1 : b0.val ||| b1.val * 2 ^ 8 = b0.val + b1.val * 2 ^ 8 :=
    lor_mul_eq_add _ _ (by omega)
  have e2 : (b0.val + b1.val * 2 ^ 8) ||| b2.val * 2 ^ 16
      = b0.val + b1.val * 2 ^ 8 + b2.val * 2 ^ 16 := lor_mul_eq_add _ _ (by omega)
  have e3 : (b0.val + b1.val * 2 ^ 8 + b2.val * 2 ^ 16) ||| b3.val * 2 ^ 24
      = b0.val + b1.val * 2 ^ 8 + b2.val * 2 ^ 16 + b3.val * 2 ^ 24 :=
    lor_mul_eq_add _ _ (by omega)
  rw [e1, e2, e3]
  congr 1
  omega

/-- The combined capability value of two 16-bit halves. -/
theorem capabilityFlags_eq (low high : Nat) (hl : low < 65536) (hh : high < 65536) :
    capabilityFlags (low : Int) (high : Int) = ((low + 65536 * high : Nat) : Int) := by
  unfold capabilityFlags
  rw [shl_natCast _ _ (by omega), bor_natCast, lor_mul_eq_add _ _ (by omega)]
  congr 1
  omega

/-- The length of the second region is `max (L - 8) 13`. -/
theorem authPluginDataPart2Len_eq (L : Byte) :
    authPluginDataPart2Len (toInt L) = max ((L.val : Int) - 8) 13 := by
  unfold authPluginDataPart2Len toInt
  simp only
  split <;> omega

/-- A number below ten prints as one digit. -/
theorem decimal_digit (n : Nat) (h : n < 10) : decimal n = [Fin.ofNat (48 + n)] := by
  interval_cases n <;> decide

set_option maxRecDepth 1000000 in
/-- The displayed name is `unknown` exactly off the eight keys of the table. -/
theorem charSetName_unknown_iff :
    ∀ c : Byte,
      charSetName c = "unknown" ↔ c ∉ ([1, 8, 33, 45, 63, 83, 192, 255] : List Byte) := by
  decide

set_option maxRecDepth 1000000 in
/-- On a key of the table the displayed name is the entry, which is not empty. -/
theorem charSetMap_of_mem :
    ∀ c : Byte, c ∈ ([1, 8, 33, 45, 63, 83, 192, 255] : List Byte) →
      charSetMap c = some (charSetName c) ∧ charSetName c ≠ "" := by
  decide

/-- For a protocol version of at least 9 the parse never panics and prints exactly `report`. -/
theorem checkMySQL_parse_eq_report (payload : List Byte) (v : Byte) (sv : List Byte) (s : Nat)
    (hv : payload[0]? = some v) (h9 : 9 ≤ v)
    (hs : readNullTerminatedString payload 1 = some (sv, s)) :
    checkMySQL_parse payload = some (report payload v sv s) := by
  have hlen : ¬ payload.length < 1 := by
    intro hc
    rw [List.getElem?_eq_none (by omega)] at hv
    exact absurd hv (by simp)
  have h9' : ¬ v < 9 := not_lt.mpr h9
  unfold checkMySQL_parse report
  simp only [hlen, hv, h9', hs, if_false, Nat.zero_add, gt_iff_lt]
  by_cases h4 : payload.length < s + 4
  · simp only [h4, if_true]
  · simp only [h4, if_false, getElem?_eq_byteAt (show s < payload.length by omega),
      getElem?_eq_byteAt (show s + 1 < payload.length by omega),
      getElem?_eq_byteAt (show s + 2 < payload.length by omega),
      getElem?_eq_byteAt (show s + 3 < payload.length by omega)]
    by_cases hv9 : v = 9
    · simp only [hv9, if_true, headerLines]
    · simp only [hv9, if_false, Nat.add_assoc, Nat.reduceAdd, extendedLines]
      by_cases h15 : payload.length < s + 15
      · simp only [h15, if_true, headerLines]
      · simp only [h15, if_false, getElem?_eq_byteAt (show s + 13 < payload.length by omega),
          getElem?_eq_byteAt (show s + 14 < payload.length by omega)]
        by_cases h16 : payload.length < s + 16
        · simp only [h16, if_true, headerLines]
        · simp only [h16, if_false, getElem?_eq_byteAt (show s + 15 < payload.length by omega)]
          by_cases h18 : payload.length < s + 18
          · simp only [h18, if_true, headerLines]
          · simp only [h18, if_false,
              getElem?_eq_byteAt (show s + 16 < payload.length by omega),
              getElem?_eq_byteAt (show s + 17 < payload.length by omega)]
            by_cases h20 : payload.length < s + 20
            · simp only [h20, if_true, headerLines]
            · simp only [h20, if_false,
                getElem?_eq_byteAt (show s + 18 < payload.length by omega),
                getElem?_eq_byteAt (show s + 19 < payload.length by omega)]
              by_cases h21 : payload.length < s + 21
              · simp only [h21, if_true, headerLines]
              · simp only [h21, if_false,
                  getElem?_eq_byteAt (show s + 20 < payload.length by omega),
                  infoLines, pluginNameAt, headerLines]
                by_cases ha : toInt (byteAt payload (s + 20)) = 0
                · simp only [ha, ne_eq, not_true_eq_false, if_false]
                · simp only [ha, ne_eq, not_false_eq_true, if_true,
                    readNullTerminatedString_eq]
                  simp only [Nat.add_assoc]

/-- With at least four bytes after the server version the report starts with the header lines, and what follows holds no connection-id error. -/
theorem report_eq_header_append (payload : List Byte) (v : Byte) (sv : List Byte) (s : Nat)
    (h4 : s + 4 ≤ payload.length) :
    ∃ rest, report payload v sv s = headerLines payload v sv s ++ rest ∧
      Line.connIdTooShort ∉ rest := by
  unfold report
  rw [if_neg (by omega)]
  by_cases hv9 : v = 9
  · exact ⟨[], by simp [hv9], by simp⟩
  · refine ⟨extendedLines payload s, by simp [hv9], ?_⟩
    unfold extendedLines infoLines
    split_ifs <;> simp

/-- Above protocol version 9 and with at least 21 bytes after the server version, the report is the header lines followed by the final report. -/
theorem report_full (payload : List Byte) (v : Byte) (sv : List Byte) (s : Nat)
    (h9 : 9 < v) (hlen : s + 21 ≤ payload.length) :
    report payload v sv s = headerLines payload v sv s ++ infoLines payload s := by
  have hv9 : v ≠ 9 := fun h => by rw [h] at h9; exact absurd h9 (by decide)
  unfold report extendedLines
  rw [if_neg (by omega), if_neg hv9, if_neg (by omega), if_neg (by omega), if_neg (by omega),
    if_neg (by omega), if_neg (by omega)]

/-- A line that is printed occurs in the bytes written to standard output. -/
theorem mem_stdout {l : Line} {out : List Line} (h : l ∈ out) :
    ∃ before after, stdout out = before ++ render l ++ after := by
  induction out with
  | nil => simp at h
  | cons a rest ih =>
    rcases List.mem_cons.mp h with rfl | h
    · exact ⟨[], stdout rest, by simp [stdout]⟩
    · obtain ⟨before, after, hba⟩ := ih h
      refine ⟨render a ++ before, after, ?_⟩
      simp only [stdout, List.map_cons, List.flatten_cons] at hba ⊢
      rw [hba]
      simp

/-- The decoded length is the little-endian value of the first three header bytes. -/
theorem packetLength_eq (header : List Byte) :
    packetLength header = ((headerLength header : Nat) : Int) := by
  have h0 := (byteAt header 0).isLt
  have h1 := (byteAt header 1).isLt
  have h2 := (byteAt header 2).isLt
  unfold packetLength headerLength
  change bor (bor (toInt (byteAt header 0)) (shl (toInt (byteAt header 1)) 8))
    (shl (toInt (byteAt header 2)) 16) = _
  rw [toInt_eq, toInt_eq, toInt_eq, shl_natCast _ _ (by omega), shl_natCast _ _ (by omega),
    bor_natCast, bor_natCast]
  have e1 : (byteAt header 0).val ||| (byteAt header 1).val * 2 ^ 8
      = (byteAt header 0).val + (byteAt header 1).val * 2 ^ 8 := lor_mul_eq_add _ _ (by omega)
  have e2 : ((byteAt header 0).val + (byteAt header 1).val * 2 ^ 8) |||
      (byteAt header 2).val * 2 ^ 16 = (byteAt header 0).val + (byteAt header 1).val * 2 ^ 8 +
        (byteAt header 2).val * 2 ^ 16 := lor_mul_eq_add _ _ (by omega)
  rw [e1, e2]
  have hsum : (byteAt header 0).val + (byteAt header 1).val * 2 ^ 8 +
      (byteAt header 2).val * 2 ^ 16 = (byteAt header 0).val + 256 * (byteAt header 1).val +
        65536 * (byteAt header 2).val := by omega
  rw [hsum]

/-- The value of three bytes is below `2 ^ 24`. -/
theorem headerLength_lt (stream : List Byte) : headerLength stream < 2 ^ 24 := by
  have h0 := (byteAt stream 0).isLt
  have h1 := (byteAt stream 1).isLt
  have h2 := (byteAt stream 2).isLt
  unfold headerLength
  omega

/-- Reading inside the first `n` bytes of a stream. -/
theorem byteAt_take (stream : List Byte) (n i : Nat) (h : i < n) :
    byteAt (stream.take n) i = byteAt stream i := by
  simp [byteAt, List.getD_eq_getElem?_getD, List.getElem?_take, h]

/-- The value of the length bytes only depends on the first four bytes. -/
theorem headerLength_take (stream : List Byte) :
    headerLength (stream.take 4) = headerLength stream := by
  unfold headerLength
  rw [byteAt_take _ _ _ (by decide), byteAt_take _ _ _ (by decide), byteAt_take _ _ _ (by decide)]

/-- The value of the length bytes is zero exactly when the three bytes are zero. -/
theorem headerLength_eq_zero_iff (stream : List Byte) :
    headerLength stream = 0 ↔
      byteAt stream 0 = 0 ∧ byteAt stream 1 = 0 ∧ byteAt stream 2 = 0 := by
  unfold headerLength
  constructor
  · intro h
    refine ⟨Fin.ext ?_, Fin.ext ?_, Fin.ext ?_⟩ <;> simp <;> omega
  · rintro ⟨h0, h1, h2⟩
    rw [h0, h1, h2]
    rfl

/-- A read of no more bytes than the stream still holds. -/
theorem readFull_of_le (conn : Conn) (n : Nat) (h : n ≤ conn.pending.length) :
    readFull conn n =
      (.ok (conn.pending.take n),
        { pending := conn.pending.drop n, reads := conn.reads ++ [n] }) := by
  unfold readFull
  exact if_pos h

/-- A read of more bytes than the stream still holds. -/
theorem readFull_of_lt (conn : Conn) (n : Nat) (h : conn.pending.length < n) :
    readFull conn n =
      (.error (if conn.pending.length = 0 then .eof else .unexpectedEOF),
        { pending := [], reads := conn.reads ++ [n] }) := by
  unfold readFull
  exact if_neg (by omega)

/-- The framer on a stream that ends before the header is complete. -/
theorem readMySQLPacket_short_header (conn : Conn) (h : conn.pending.length < 4) :
    readMySQLPacket conn =
      (.error (.readingHeader (if conn.pending.length = 0 then .eof else .unexpectedEOF)),
        { pending := [], reads := conn.reads ++ [4] }) := by
  unfold readMySQLPacket
  rw [readFull_of_lt conn 4 h]

/-- The framer on a stream with a complete header that declares the length 0. -/
theorem readMySQLPacket_zero (conn : Conn) (h4 : 4 ≤ conn.pending.length)
    (h0 : headerLength conn.pending = 0) :
    readMySQLPacket conn =
      (.error (.invalidLength 0),
        { pending := conn.pending.drop 4, reads := conn.reads ++ [4] }) := by
  unfold readMySQLPacket
  rw [readFull_of_le conn 4 h4]
  simp only [packetLength_eq, headerLength_take, h0]
  rfl

/-- The framer on a stream with a complete header that declares a length of at least 1. -/
theorem readMySQLPacket_pos (conn : Conn) (h4 : 4 ≤ conn.pending.length)
    (h1 : 1 ≤ headerLength conn.pending) :
    readMySQLPacket conn =
      if 4 + headerLength conn.pending ≤ conn.pending.length then
        (.ok ((conn.pending.drop 4).take (headerLength conn.pending)),
          { pending := conn.pending.drop (4 + headerLength conn.pending),
            reads := conn.reads ++ [4, headerLength conn.pending] })
      else
        (.error (.readingPayload
            (if conn.pending.length = 4 then .eof else .unexpectedEOF)),
          { pending := [], reads := conn.reads ++ [4, headerLength conn.pending] }) := by
  have hpos : ¬ ((headerLength conn.pending : Nat) : Int) ≤ 0 := by omega
  unfold readMySQLPacket
  rw [readFull_of_le conn 4 h4]
  simp only [packetLength_eq, headerLength_take, hpos, if_false, Int.toNat_ofNat]
  by_cases hle : 4 + headerLength conn.pending ≤ conn.pending.length
  · rw [if_pos hle, readFull_of_le _ _ (by simp only [List.length_drop]; omega)]
    simp [Nat.add_comm]
  · rw [if_neg hle, readFull_of_lt _ _ (by simp only [List.length_drop]; omega)]
    have h40 : (conn.pending.length - 4 = 0) ↔ conn.pending.length = 4 := by omega
    simp [h40]

/-- The parse of the empty payload. -/
theorem checkMySQL_parse_nil : checkMySQL_parse [] = some [Line.payloadTooShort] := rfl

/-- The parse of a payload whose first byte is below 9. -/
theorem checkMySQL_parse_of_lt (v : Byte) (rest : List Byte) (h : v < 9) :
    checkMySQL_parse (v :: rest) = some [Line.unsupportedVersion v] := by
  simp [checkMySQL_parse, h]

/-- The cursor after a string read from within the payload stays within the payload. -/
theorem cursor_le_length (payload sv : List Byte) (offset s : Nat)
    (hoff : offset ≤ payload.length)
    (hs : readNullTerminatedString payload offset = some (sv, s)) :
    offset ≤ s ∧ s ≤ payload.length := by
  rw [readNullTerminatedString_eq] at hs
  have h2 := (Prod.mk.inj (Option.some.inj hs)).2
  split at h2 <;> omega

/-- The parse of a payload whose first byte is at least 9: it never panics, and prints
the report for the server version and cursor that `readNullTerminatedString` returns. -/
theorem checkMySQL_parse_of_ge (payload : List Byte) (v : Byte)
    (hv : payload[0]? = some v) (h9 : 9 ≤ v) :
    ∃ sv s, readNullTerminatedString payload 1 = some (sv, s) ∧ 1 ≤ s ∧ s ≤ payload.length ∧
      checkMySQL_parse payload = some (report payload v sv s) := by
  have hlen : 1 ≤ payload.length := by
    by_contra hc
    rw [List.getElem?_eq_none (by omega)] at hv
    exact absurd hv (by simp)
  have hs := readNullTerminatedString_eq payload 1
  obtain ⟨h1, h2⟩ := cursor_le_length payload _ 1 _ hlen hs
  exact ⟨_, _, hs, h1, h2, checkMySQL_parse_eq_report payload v _ _ hv h9 hs⟩

/-- The shape of the report above protocol version 9, by the number of bytes after the
server version. -/
theorem report_cases (payload : List Byte) (v : Byte) (sv : List Byte) (s : Nat) (h9 : 9 < v) :
    (payload.length < s + 4 ∧ report payload v sv s = [Line.connIdTooShort]) ∨
    (s + 4 ≤ payload.length ∧ payload.length < s + 15 ∧
      report payload v sv s = headerLines payload v sv s ++ [Line.capLowTooShort]) ∨
    (payload.length = s + 15 ∧
      report payload v sv s = headerLines payload v sv s ++ [Line.charSetTooShort]) ∨
    (s + 16 ≤ payload.length ∧ payload.length < s + 18 ∧
      report payload v sv s = headerLines payload v sv s ++ [Line.statusTooShort]) ∨
    (s + 18 ≤ payload.length ∧ payload.length < s + 20 ∧
      report payload v sv s = headerLines payload v sv s ++ [Line.capHighTooShort]) ∨
    (payload.length = s + 20 ∧
      report payload v sv s = headerLines payload v sv s ++ [Line.authLenTooShort]) ∨
    (s + 21 ≤ payload.length ∧
      report payload v sv s = headerLines payload v sv s ++ infoLines payload s) := by
  have hv9 : v ≠ 9 := fun h => by rw [h] at h9; exact absurd h9 (by decide)
  unfold report extendedLines
  by_cases h4 : payload.length < s + 4
  · exact Or.inl ⟨h4, if_pos h4⟩
  · rw [if_neg h4, if_neg hv9]
    by_cases h15 : payload.length < s + 15
    · exact Or.inr (Or.inl ⟨by omega, h15, by rw [if_pos h15]⟩)
    · rw [if_neg h15]
      by_cases h16 : payload.length < s + 16
      · exact Or.inr (Or.inr (Or.inl ⟨by omega, by rw [if_pos h16]⟩))
      · rw [if_neg h16]
        by_cases h18 : payload.length < s + 18
        · exact Or.inr (Or.inr (Or.inr (Or.inl ⟨by omega, h18, by rw [if_pos h18]⟩)))
        · rw [if_neg h18]
          by_cases h20 : payload.length < s + 20
          · exact Or.inr (Or.inr (Or.inr (Or.inr (Or.inl ⟨by omega, h20, by rw [if_pos h20]⟩))))
          · rw [if_neg h20]
            by_cases h21 : payload.length < s + 21
            · exact Or.inr (Or.inr (Or.inr (Or.inr (Or.inr (Or.inl
                ⟨by omega, by rw [if_pos h21]⟩)))))
            · exact Or.inr (Or.inr (Or.inr (Or.inr (Or.inr (Or.inr
                ⟨by omega, by rw [if_neg h21]⟩)))))

/-- The report for protocol version 9. -/
theorem report_nine (payload : List Byte) (sv : List Byte) (s : Nat) :
    (payload.length < s + 4 ∧ report payload 9 sv s = [Line.connIdTooShort]) ∨
    (s + 4 ≤ payload.length ∧ report payload 9 sv s = headerLines payload 9 sv s) := by
  unfold report
  by_cases h4 : payload.length < s + 4
  · exact Or.inl ⟨h4, if_pos h4⟩
  · exact Or.inr ⟨by omega, by rw [if_neg h4, if_pos rfl]⟩

/-- When the text stops before the end of the sequence, the byte it stops at is zero. -/
theorem getElem?_untilNul_length (l : List Byte) (h : (untilNul l).length < l.length) :
    l[(untilNul l).length]? = some 0 := by
  induction l with
  | nil => simp [untilNul] at h
  | cons b l ih =>
    by_cases hb : b = 0
    · simp [untilNul, hb]
    · rw [untilNul_cons_ne hb] at h ⊢
      simp only [List.length_cons, List.getElem?_cons_succ] at h ⊢
      exact ih (by omega)

/-- No byte of the text is zero, index by index. -/
theorem getElem?_ne_zero_of_lt_untilNul (l : List Byte) :
    ∀ i : Nat, i < (untilNul l).length → l[i]? ≠ some 0 := by
  induction l with
  | nil => intro i h; simp [untilNul] at h
  | cons b l ih =>
    intro i h
    by_cases hb : b = 0
    · simp [untilNul, hb] at h
    · rw [untilNul_cons_ne hb] at h
      cases i with
      | zero => simpa using hb
      | succ i =>
        simp only [List.length_cons, List.getElem?_cons_succ] at h ⊢
        exact ih i (by omega)

/-- The error line for an empty payload is not part of a report. -/
theorem payloadTooShort_not_mem_report (payload : List Byte) (v : Byte) (sv : List Byte)
    (s : Nat) : Line.payloadTooShort ∉ report payload v sv s := by
  unfold report extendedLines infoLines headerLines
  split_ifs <;> simp

set_option maxRecDepth 1000000 in
/-- The early error lines do not hold the detection text. -/
theorem detectedText_not_in_early :
    ¬ (detectedText <:+: stdout [Line.payloadTooShort]) ∧
    ¬ (detectedText <:+: stdout [Line.connIdTooShort]) ∧
    ∀ v : Byte, v < 9 → ¬ (detectedText <:+: stdout [Line.unsupportedVersion v]) := by
  decide

/-- The conversion to `uint32` leaves a value below `2 ^ 32` alone. -/
theorem toUint32_natCast (n : Nat) (h : n < 2 ^ 32) : toUint32 ((n : Nat) : Int) = n := by
  unfold toUint32
  omega

/-- The conversion to `uint16` leaves a value below `2 ^ 16` alone. -/
theorem toUint16_natCast (n : Nat) (h : n < 2 ^ 16) : toUint16 ((n : Nat) : Int) = n := by
  unfold toUint16
  omega

/-- The final report in numbers: above protocol version 9 and with at least 21 bytes after
the server version, the parse prints the detection line, the three header fields and the
five lines of the report, each value being the little-endian value of the payload bytes at
its place. -/
theorem checkMySQL_parse_full (payload : List Byte) (v : Byte) (sv : List Byte) (s : Nat)
    (hv : payload[0]? = some v) (h9 : 9 < v)
    (hs : readNullTerminatedString payload 1 = some (sv, s))
    (hlen : s + 21 ≤ payload.length) :
    checkMySQL_parse payload =
      some [Line.detected, Line.protocolVersion v, Line.serverVersion sv,
        Line.connectionId
          (((byteAt payload s).val + 256 * (byteAt payload (s + 1)).val +
            65536 * (byteAt payload (s + 2)).val +
            16777216 * (byteAt payload (s + 3)).val : Nat) : Int),
        Line.handshakeInfo,
        Line.characterSet (byteAt payload (s + 15)) (charSetName (byteAt payload (s + 15))),
        Line.capabilities
          ((byteAt payload (s + 13)).val + 256 * (byteAt payload (s + 14)).val +
            65536 * ((byteAt payload (s + 18)).val + 256 * (byteAt payload (s + 19)).val)),
        Line.statusFlags
          ((byteAt payload (s + 16)).val + 256 * (byteAt payload (s + 17)).val),
        Line.authPluginName (pluginNameAt payload s)] := by
  have b13 := (byteAt payload (s + 13)).isLt
  have b14 := (byteAt payload (s + 14)).isLt
  have b16 := (byteAt payload (s + 16)).isLt
  have b17 := (byteAt payload (s + 17)).isLt
  have b18 := (byteAt payload (s + 18)).isLt
  have b19 := (byteAt payload (s + 19)).isLt
  rw [checkMySQL_parse_eq_report payload v sv s hv (le_of_lt h9) hs,
    report_full payload v sv s h9 hlen]
  simp only [headerLines, infoLines, connID_eq, readU16_eq]
  rw [capabilityFlags_eq _ _ (by omega) (by omega), toUint32_natCast _ (by omega),
    toUint16_natCast _ (by omega)]
  rfl

/-! ## The properties -/

/-- C1, round trip. For every protocol version above 9, every server version and plugin
name without a zero byte, every connection id and capability value below `2 ^ 32`, every
status value below `2 ^ 16`, every character-set byte and every auth-plugin-data length
from 1 to 255, the payload built field by field in wire order (with 8 nonce bytes, a
filler byte, 10 reserved bytes and `max (L - 8) 13` bytes of second region, all of them
arbitrary) is decoded by the parse to exactly those values. -/
theorem handshake_round_trip (v : Byte) (sv plugin : List Byte) (cid caps status : Nat)
    (cs L filler : Byte) (nonce reserved part2 : List Byte)
    (hv : 9 < v) (hsv : (0 : Byte) ∉ sv) (hpl : (0 : Byte) ∉ plugin)
    (hcid : cid < 2 ^ 32) (hcaps : caps < 2 ^ 32) (hstatus : status < 2 ^ 16)
    (hL : 1 ≤ L.val) (hn : nonce.length = 8) (hr : reserved.length = 10)
    (h2 : part2.length = max (L.val - 8) 13) :
    checkMySQL_parse
        (encodeHandshake v sv cid nonce filler caps cs status L reserved part2 plugin) =
      some [Line.detected, Line.protocolVersion v, Line.serverVersion sv,
        Line.connectionId cid, Line.handshakeInfo, Line.characterSet cs (charSetName cs),
        Line.capabilities caps, Line.statusFlags status, Line.authPluginName plugin] := by
  -- the payload, cut at the places the parse looks at
  set payload := encodeHandshake v sv cid nonce filler caps cs status L reserved part2 plugin
    with hpay
  have hp1 : payload = v :: (sv ++ 0 :: (le32 cid ++ nonce ++ [filler] ++
      le16 (caps % 65536) ++ [cs] ++ le16 status ++ le16 (caps / 65536) ++ [L] ++ reserved ++
      part2 ++ plugin ++ [0])) := by
    simp [hpay, encodeHandshake]
  have hp2 : payload = (v :: (sv ++ [0])) ++ (le32 cid ++ (nonce ++ [filler] ++
      le16 (caps % 65536) ++ [cs] ++ le16 status ++ le16 (caps / 65536) ++ [L] ++ reserved ++
      part2 ++ plugin ++ [0])) := by
    simp [hpay, encodeHandshake]
  have hp3 : payload = (v :: (sv ++ [0]) ++ le32 cid ++ nonce ++ [filler]) ++
      (le16 (caps % 65536) ++ [cs] ++ le16 status ++ le16 (caps / 65536) ++ [L] ++ (reserved ++
      part2 ++ plugin ++ [0])) := by
    simp [hpay, encodeHandshake]
  have hp4 : payload = (v :: (sv ++ [0]) ++ le32 cid ++ nonce ++ [filler] ++
      le16 (caps % 65536) ++ [cs] ++ le16 status ++ le16 (caps / 65536) ++ [L] ++ reserved ++
      part2) ++ (plugin ++ [0]) := by
    simp [hpay, encodeHandshake]
  have hlen : payload.length = sv.length + 2 + 31 + part2.length + plugin.length + 1 := by
    simp [hpay, encodeHandshake, le16, le32, hn, hr]
    omega
  have hs : readNullTerminatedString payload 1 = some (sv, sv.length + 2) :=
    readNullTerminatedString_one payload v sv _ hp1 hsv
  have hv0 : payload[0]? = some v := by rw [hp1]; simp
  rw [checkMySQL_parse_eq_report payload v sv (sv.length + 2) hv0 (le_of_lt hv) hs,
    report_full payload v sv (sv.length + 2) hv (by omega)]
  have hA2 : (v :: (sv ++ [0])).length = sv.length + 2 := by simp
  have hA3 : (v :: (sv ++ [0]) ++ le32 cid ++ nonce ++ [filler]).length = sv.length + 2 + 13 := by
    simp [le32, hn]
  have hA4 : (v :: (sv ++ [0]) ++ le32 cid ++ nonce ++ [filler] ++
      le16 (caps % 65536) ++ [cs] ++ le16 status ++ le16 (caps / 65536) ++ [L] ++ reserved ++
      part2).length = sv.length + 2 + 31 + part2.length := by
    simp [le32, le16, hn, hr]
    omega
  have c0 : byteAt payload (sv.length + 2) = Fin.ofNat (cid % 256) := by
    rw [hp2, byteAt_append_at _ _ _ 0 (by rw [hA2])]; rfl
  have c1 : byteAt payload (sv.length + 2 + 1) = Fin.ofNat (cid / 256 % 256) := by
    rw [hp2, byteAt_append_at _ _ _ 1 (by rw [hA2])]; rfl
  have c2 : byteAt payload (sv.length + 2 + 2) = Fin.ofNat (cid / 65536 % 256) := by
    rw [hp2, byteAt_append_at _ _ _ 2 (by rw [hA2])]; rfl
  have c3 : byteAt payload (sv.length + 2 + 3) = Fin.ofNat (cid / 16777216 % 256) := by
    rw [hp2, byteAt_append_at _ _ _ 3 (by rw [hA2])]; rfl
  have l0 : byteAt payload (sv.length + 2 + 13) = Fin.ofNat (caps % 65536 % 256) := by
    rw [hp3, byteAt_append_at _ _ _ 0 (by rw [hA3])]; rfl
  have l1 : byteAt payload (sv.length + 2 + 14) = Fin.ofNat (caps % 65536 / 256 % 256) := by
    rw [hp3, byteAt_append_at _ _ _ 1 (by rw [hA3])]; rfl
  have e15 : byteAt payload (sv.length + 2 + 15) = cs := by
    rw [hp3, byteAt_append_at _ _ _ 2 (by rw [hA3])]; rfl
  have s0 : byteAt payload (sv.length + 2 + 16) = Fin.ofNat (status % 256) := by
    rw [hp3, byteAt_append_at _ _ _ 3 (by rw [hA3])]; rfl
  have s1 : byteAt payload (sv.length + 2 + 17) = Fin.ofNat (status / 256 % 256) := by
    rw [hp3, byteAt_append_at _ _ _ 4 (by rw [hA3])]; rfl
  have g0 : byteAt payload (sv.length + 2 + 18) = Fin.ofNat (caps / 65536 % 256) := by
    rw [hp3, byteAt_append_at _ _ _ 5 (by rw [hA3])]; rfl
  have g1 : byteAt payload (sv.length + 2 + 19) = Fin.ofNat (caps / 65536 / 256 % 256) := by
    rw [hp3, byteAt_append_at _ _ _ 6 (by rw [hA3])]; rfl
  have e20 : byteAt payload (sv.length + 2 + 20) = L := by
    rw [hp3, byteAt_append_at _ _ _ 7 (by rw [hA3])]; rfl
  have hLlt := L.isLt
  have hne : toInt L ≠ 0 := by
    unfold toInt
    omega
  have hskip : (authPluginDataPart2Len (toInt L)).toNat = part2.length := by
    rw [authPluginDataPart2Len_eq, h2]
    omega
  have hdrop : payload.drop (sv.length + 2 + 31 + part2.length) = plugin ++ [0] := by
    rw [hp4, ← hA4]
    exact List.drop_left _ _
  have hpn : pluginNameAt payload (sv.length + 2) = plugin := by
    unfold pluginNameAt
    rw [e20, if_pos hne, hskip, hdrop]
    exact untilNul_append_zero plugin [] hpl
  have hcid' : connID (Fin.ofNat (cid % 256)) (Fin.ofNat (cid / 256 % 256))
      (Fin.ofNat (cid / 65536 % 256)) (Fin.ofNat (cid / 16777216 % 256)) = (cid : Int) := by
    rw [connID_eq, ofNat_val_of_lt (Nat.mod_lt _ (by decide)),
      ofNat_val_of_lt (Nat.mod_lt _ (by decide)), ofNat_val_of_lt (Nat.mod_lt _ (by decide)),
      ofNat_val_of_lt (Nat.mod_lt _ (by decide))]
    have hsum : cid % 256 + 256 * (cid / 256 % 256) + 65536 * (cid / 65536 % 256) +
        16777216 * (cid / 16777216 % 256) = cid := by omega
    rw [hsum]
  have hu16 : ∀ n : Nat, n < 65536 →
      readU16 (Fin.ofNat (n % 256)) (Fin.ofNat (n / 256 % 256)) = (n : Int) := by
    intro n hn16
    rw [readU16_eq, ofNat_val_of_lt (Nat.mod_lt _ (by decide)),
      ofNat_val_of_lt (Nat.mod_lt _ (by decide))]
    have hsum : n % 256 + 256 * (n / 256 % 256) = n := by omega
    rw [hsum]
  have hcaps' : toUint32 (capabilityFlags ((caps % 65536 : Nat) : Int)
      ((caps / 65536 : Nat) : Int)) = caps := by
    rw [capabilityFlags_eq _ _ (by omega) (by omega)]
    unfold toUint32
    omega
  have hst' : toUint16 ((status : Nat) : Int) = status := by
    unfold toUint16
    omega
  simp only [headerLines, infoLines, c0, c1, c2, c3, l0, l1, e15, s0, s1, g0, g1, hpn, hcid',
    hu16 (caps % 65536) (by omega), hu16 (caps / 65536) (by omega), hu16 status (by omega),
    hcaps', hst']
  rfl

/-- C1 at a concrete handshake: version 10, server version `8.1`, connection id
`0x01020304`, capabilities `0x00020001`, character set 33, status 2, length 21 and
plugin name `my`. -/
theorem handshake_round_trip_witness :
    checkMySQL_parse
        (encodeHandshake 10 [56, 46, 49] 0x01020304 [1, 2, 3, 4, 5, 6, 7, 8] 0 0x00020001 33 2
          21 [0, 0, 0, 0, 0, 0, 0, 0, 0, 0] [9, 8, 7, 6, 5, 4, 3, 2, 1, 9, 8, 7, 0]
          [109, 121]) =
      some [Line.detected, Line.protocolVersion 10, Line.serverVersion [56, 46, 49],
        Line.connectionId (0x01020304 : Nat), Line.handshakeInfo,
        Line.characterSet 33 (charSetName 33), Line.capabilities 0x00020001,
        Line.statusFlags 2, Line.authPluginName [109, 121]] :=
  handshake_round_trip 10 [56, 46, 49] [109, 121] 0x01020304 0x00020001 2 33 21 0
    [1, 2, 3, 4, 5, 6, 7, 8] [0, 0, 0, 0, 0, 0, 0, 0, 0, 0]
    [9, 8, 7, 6, 5, 4, 3, 2, 1, 9, 8, 7, 0] (by decide) (by decide) (by decide) (by norm_num)
    (by norm_num) (by norm_num) (by decide) (by decide) (by decide) (by decide)

/-- C2, unsupported version. For every non-empty payload whose first byte `b` is below 9,
whatever the remaining bytes, the parse prints one line only, the
unsupported-protocol-version message; the bytes written are the message text followed by
the decimal value of `b`, which is the single digit `48 + b`. -/
theorem unsupported_version (b : Byte) (rest : List Byte) (hb : b < 9) :
    checkMySQL_parse (b :: rest) = some [Line.unsupportedVersion b] ∧
    stdout [Line.unsupportedVersion b] =
      ascii "Unable to detect MySQL. Unsupported protocol version? " ++
        decimal b.val ++ ascii "\n" ∧
    decimal b.val = [(48 : Byte) + b] := by
  refine ⟨?_, ?_, ?_⟩
  · simp [checkMySQL_parse, hb]
  · simp [stdout, render]
  · have h9 : b.val < 9 := hb
    rw [decimal_digit _ (by omega)]
    rfl

/-- C2 at first byte 8. -/
theorem unsupported_version_witness :
    checkMySQL_parse [8, 53, 46, 55, 0, 1, 0, 0, 0] = some [Line.unsupportedVersion 8] ∧
    stdout [Line.unsupportedVersion 8] =
      ascii "Unable to detect MySQL. Unsupported protocol version? " ++
        decimal (8 : Byte).val ++ ascii "\n" ∧
    decimal (8 : Byte).val = [(48 : Byte) + 8] :=
  unsupported_version 8 [53, 46, 55, 0, 1, 0, 0, 0] (by decide)

/-- C3, protocol version 9. For every payload made of the byte 9, a server version
without a zero byte, a zero byte and at least four more bytes, the parse prints the
detection line and exactly three fields: protocol version 9, the server version and the
connection id (the little-endian value of the four bytes), whatever bytes follow. -/
theorem protocol_nine (sv more : List Byte) (c0 c1 c2 c3 : Byte) (hsv : (0 : Byte) ∉ sv) :
    checkMySQL_parse (9 :: (sv ++ 0 :: c0 :: c1 :: c2 :: c3 :: more)) =
      some [Line.detected, Line.protocolVersion 9, Line.serverVersion sv,
        Line.connectionId
          ((c0.val + 256 * c1.val + 65536 * c2.val + 16777216 * c3.val : Nat) : Int)] := by
  have hs := readNullTerminatedString_one _ 9 sv (c0 :: c1 :: c2 :: c3 :: more) rfl hsv
  rw [checkMySQL_parse_eq_report _ 9 sv (sv.length + 2) (by simp) (by decide) hs]
  have hA : (9 :: (sv ++ [0])).length = sv.length + 2 := by simp
  have hp : (9 : Byte) :: (sv ++ 0 :: c0 :: c1 :: c2 :: c3 :: more)
      = (9 :: (sv ++ [0])) ++ (c0 :: c1 :: c2 :: c3 :: more) := by simp
  have b0 := byteAt_append_right _ (c0 :: c1 :: c2 :: c3 :: more) _ 0 hA
  have b1 := byteAt_append_right _ (c0 :: c1 :: c2 :: c3 :: more) _ 1 hA
  have b2 := byteAt_append_right _ (c0 :: c1 :: c2 :: c3 :: more) _ 2 hA
  have b3 := byteAt_append_right _ (c0 :: c1 :: c2 :: c3 :: more) _ 3 hA
  rw [← hp] at b0 b1 b2 b3
  unfold report headerLines
  rw [if_neg (by simp only [List.length_cons, List.length_append]; omega), if_pos rfl,
    ← Nat.add_zero (sv.length + 2), b0, Nat.add_zero, b1, b2, b3, connID_eq]
  rfl

/-- C3 at server version `5.5` and trailing bytes after the connection id. -/
theorem protocol_nine_witness :
    checkMySQL_parse (9 :: ([53, 46, 53] ++ 0 :: 1 :: 2 :: 3 :: 4 :: [33, 0, 250])) =
      some [Line.detected, Line.protocolVersion 9, Line.serverVersion [53, 46, 53],
        Line.connectionId
          (((1 : Byte).val + 256 * (2 : Byte).val + 65536 * (3 : Byte).val +
            16777216 * (4 : Byte).val : Nat) : Int)] :=
  protocol_nine [53, 46, 53] [33, 0, 250] 1 2 3 4 (by decide)

/-- C4, server version line. For every payload with first byte at least 9 whose first
zero byte at an index from 1 on is at index `k`, with at least four bytes after index `k`,
the parse prints the line `Server Version: ` followed by exactly the bytes
`payload[1..k)`, and those bytes occur in what is written to standard output. -/
theorem server_version_line (payload : List Byte) (v : Byte) (k : Nat)
    (hv : payload[0]? = some v) (h9 : 9 ≤ v) (hk1 : 1 ≤ k) (hk : payload[k]? = some 0)
    (hmin : ∀ i : Nat, 1 ≤ i → i < k → payload[i]? ≠ some 0)
    (h4 : k + 5 ≤ payload.length) :
    ∃ out, checkMySQL_parse payload = some out ∧
      Line.serverVersion ((payload.drop 1).take (k - 1)) ∈ out ∧
      ∃ before after, stdout out =
        before ++ (ascii "Server Version: " ++ (payload.drop 1).take (k - 1) ++ ascii "\n") ++
          after := by
  obtain ⟨_, hs, _⟩ := readNullTerminatedString_found payload 1 k hk1 hk hmin
  obtain ⟨rest, hrep, _⟩ :=
    report_eq_header_append payload v ((payload.drop 1).take (k - 1)) (k + 1) (by omega)
  have hmem : Line.serverVersion ((payload.drop 1).take (k - 1)) ∈
      report payload v ((payload.drop 1).take (k - 1)) (k + 1) := by
    rw [hrep]
    simp [headerLines]
  exact ⟨_, checkMySQL_parse_eq_report payload v _ _ hv h9 hs, hmem, mem_stdout hmem⟩

/-- C4 at a handshake whose server version is `9.1.0`. -/
theorem server_version_line_witness :
    ∃ out, checkMySQL_parse [10, 57, 46, 49, 46, 48, 0, 1, 2, 3, 4] = some out ∧
      Line.serverVersion ((List.drop 1 [10, 57, 46, 49, 46, 48, 0, 1, 2, 3, 4]).take (6 - 1))
        ∈ out ∧
      ∃ before after, stdout out =
        before ++ (ascii "Server Version: " ++
          (List.drop 1 [10, 57, 46, 49, 46, 48, 0, 1, 2, 3, 4]).take (6 - 1) ++ ascii "\n") ++
          after :=
  server_version_line [10, 57, 46, 49, 46, 48, 0, 1, 2, 3, 4] 10 6 (by decide) (by decide)
    (by decide) (by decide) (by intro i h1 h6; interval_cases i <;> decide) (by decide)

/-- C5, terminator found. For every payload and offset such that some index from
`offset` on holds a zero byte, with `k` the least such index, `readNullTerminatedString`
returns the bytes `payload[offset..k)`, which hold no zero byte, and the offset `k + 1`
right after the terminator. -/
theorem readNullTerminatedString_terminator_found (payload : List Byte) (offset k : Nat)
    (hoff : offset ≤ k) (hk : payload[k]? = some 0)
    (hmin : ∀ i : Nat, offset ≤ i → i < k → payload[i]? ≠ some 0) :
    offset < payload.length ∧
    readNullTerminatedString payload offset =
      some ((payload.drop offset).take (k - offset), k + 1) ∧
    (0 : Byte) ∉ (payload.drop offset).take (k - offset) := by
  obtain ⟨hlt, hread, hzero⟩ := readNullTerminatedString_found payload offset k hoff hk hmin
  exact ⟨by omega, hread, hzero⟩

/-- C5 at the payload `10, "8.0", 0, 7` and offset 1. -/
theorem readNullTerminatedString_terminator_found_witness :
    1 < ([10, 56, 46, 48, 0, 7] : List Byte).length ∧
    readNullTerminatedString [10, 56, 46, 48, 0, 7] 1 =
      some ((List.drop 1 [10, 56, 46, 48, 0, 7]).take (4 - 1), 4 + 1) ∧
    (0 : Byte) ∉ (List.drop 1 ([10, 56, 46, 48, 0, 7] : List Byte)).take (4 - 1) :=
  readNullTerminatedString_terminator_found [10, 56, 46, 48, 0, 7] 1 4 (by decide) (by decide)
    (by
      intro i h1 h4
      interval_cases i <;> decide)

/-- C6, evaluation at the failing input. On the two-byte payload `AB` and the offset 5 no
index from 5 on holds a zero byte; `readNullTerminatedString` returns the empty string,
which is the remainder of the payload from that offset, and the offset 5 unchanged,
where its documentation says the length of the payload, 2. -/
theorem readNullTerminatedString_past_end :
    (∀ i : Nat, 5 ≤ i → ([65, 66] : List Byte)[i]? ≠ some 0) ∧
    readNullTerminatedString [65, 66] 5 = some (List.drop 5 [65, 66], 5) ∧
    List.drop 5 ([65, 66] : List Byte) = [] ∧
    ([65, 66] : List Byte).length = 2 ∧
    (5 : Nat) ≠ ([65, 66] : List Byte).length := by
  refine ⟨?_, by decide, by decide, by decide, by decide⟩
  intro i h5
  rw [List.getElem?_eq_none (by simpa using by omega)]
  simp

/-- C7, connection id. For every payload that reaches the connection-id read with cursor
`s`, the parse ends with the connection-id error exactly when fewer than four bytes remain
at `s`; otherwise the connection id printed is
`payload[s] + 2^8 * payload[s+1] + 2^16 * payload[s+2] + 2^24 * payload[s+3]`, a value
from 0 to `2 ^ 32 - 1`. -/
theorem connection_id_read (payload : List Byte) (v : Byte) (sv : List Byte) (s : Nat)
    (hv : payload[0]? = some v) (h9 : 9 ≤ v)
    (hs : readNullTerminatedString payload 1 = some (sv, s)) :
    ∃ out, checkMySQL_parse payload = some out ∧
      (Line.connIdTooShort ∈ out ↔ payload.length < s + 4) ∧
      (payload.length < s + 4 → out = [Line.connIdTooShort]) ∧
      (s + 4 ≤ payload.length →
        ∃ b0 b1 b2 b3 : Byte, ∃ rest : List Line,
          payload[s]? = some b0 ∧ payload[s + 1]? = some b1 ∧
          payload[s + 2]? = some b2 ∧ payload[s + 3]? = some b3 ∧
          out = Line.detected :: Line.protocolVersion v :: Line.serverVersion sv ::
            Line.connectionId (connID b0 b1 b2 b3) :: rest ∧
          connID b0 b1 b2 b3 =
            (b0.val : Int) + 2 ^ 8 * b1.val + 2 ^ 16 * b2.val + 2 ^ 24 * b3.val ∧
          0 ≤ connID b0 b1 b2 b3 ∧ connID b0 b1 b2 b3 < 2 ^ 32) := by
  refine ⟨_, checkMySQL_parse_eq_report payload v sv s hv h9 hs, ?_, ?_, ?_⟩
  · constructor
    · intro hmem
      by_contra hc
      obtain ⟨rest, hrep, hnot⟩ := report_eq_header_append payload v sv s (by omega)
      rw [hrep] at hmem
      simp [headerLines, hnot] at hmem
    · intro hlt
      simp [report, hlt]
  · intro hlt
    simp [report, hlt]
  · intro hle
    obtain ⟨rest, hrep, _⟩ := report_eq_header_append payload v sv s hle
    refine ⟨byteAt payload s, byteAt payload (s + 1), byteAt payload (s + 2),
      byteAt payload (s + 3), rest, getElem?_eq_byteAt (by omega),
      getElem?_eq_byteAt (by omega), getElem?_eq_byteAt (by omega),
      getElem?_eq_byteAt (by omega), ?_, ?_, ?_, ?_⟩
    · rw [hrep]
      rfl
    · rw [connID_eq]
      push_cast
      ring
    · rw [connID_eq]
      positivity
    · have h0 := (byteAt payload s).isLt
      have h1 := (byteAt payload (s + 1)).isLt
      have h2 := (byteAt payload (s + 2)).isLt
      have h3 := (byteAt payload (s + 3)).isLt
      rw [connID_eq]
      norm_cast
      omega

/-- C7 at the payload `9, "5", 0, 1, 2, 3, 4`. -/
theorem connection_id_read_witness :
    ∃ out, checkMySQL_parse [9, 53, 0, 1, 2, 3, 4] = some out ∧
      (Line.connIdTooShort ∈ out ↔ ([9, 53, 0, 1, 2, 3, 4] : List Byte).length < 3 + 4) ∧
      (([9, 53, 0, 1, 2, 3, 4] : List Byte).length < 3 + 4 → out = [Line.connIdTooShort]) ∧
      (3 + 4 ≤ ([9, 53, 0, 1, 2, 3, 4] : List Byte).length →
        ∃ b0 b1 b2 b3 : Byte, ∃ rest : List Line,
          ([9, 53, 0, 1, 2, 3, 4] : List Byte)[3]? = some b0 ∧
          ([9, 53, 0, 1, 2, 3, 4] : List Byte)[3 + 1]? = some b1 ∧
          ([9, 53, 0, 1, 2, 3, 4] : List Byte)[3 + 2]? = some b2 ∧
          ([9, 53, 0, 1, 2, 3, 4] : List Byte)[3 + 3]? = some b3 ∧
          out = Line.detected :: Line.protocolVersion 9 :: Line.serverVersion [53] ::
            Line.connectionId (connID b0 b1 b2 b3) :: rest ∧
          connID b0 b1 b2 b3 =
            (b0.val : Int) + 2 ^ 8 * b1.val + 2 ^ 16 * b2.val + 2 ^ 24 * b3.val ∧
          0 ≤ connID b0 b1 b2 b3 ∧ connID b0 b1 b2 b3 < 2 ^ 32) :=
  connection_id_read [9, 53, 0, 1, 2, 3, 4] 9 [53] 3 (by decide) (by decide) (by decide)

/-- C8, capability reassembly. For every pair of 16-bit values `low` and `high` the
combined capability value is `low + 65536 * high`, lies from 0 to `2 ^ 32 - 1`, has `low`
in bits 0 to 15 and `high` in bits 16 to 31, and is printed unchanged by the conversion
to `uint32`; and every two-byte read of the payload is such a 16-bit value. -/
theorem capability_reassembly (low high : Int) (hl0 : 0 ≤ low) (hl : low < 65536)
    (hh0 : 0 ≤ high) (hh : high < 65536) :
    capabilityFlags low high = low + 65536 * high ∧
    0 ≤ capabilityFlags low high ∧ capabilityFlags low high < 2 ^ 32 ∧
    capabilityFlags low high % 65536 = low ∧ capabilityFlags low high / 65536 = high ∧
    ((toUint32 (capabilityFlags low high) : Nat) : Int) = low + 65536 * high ∧
    ∀ b0 b1 : Byte, 0 ≤ readU16 b0 b1 ∧ readU16 b0 b1 < 65536 := by
  obtain ⟨l, rfl⟩ := Int.eq_ofNat_of_zero_le hl0
  obtain ⟨h, rfl⟩ := Int.eq_ofNat_of_zero_le hh0
  have hl' : l < 65536 := by exact_mod_cast hl
  have hh' : h < 65536 := by exact_mod_cast hh
  rw [capabilityFlags_eq l h hl' hh']
  unfold toUint32
  refine ⟨by push_cast; ring, by positivity, by omega, by omega, by omega, by omega, ?_⟩
  intro b0 b1
  have h0 := b0.isLt
  have h1 := b1.isLt
  rw [readU16_eq]
  omega

/-- C8 at `low = 0x0001` and `high = 0x0002`, which give `0x00020001`. -/
theorem capability_reassembly_witness :
    capabilityFlags 0x0001 0x0002 = 0x00020001 ∧
    0 ≤ capabilityFlags 0x0001 0x0002 ∧ capabilityFlags 0x0001 0x0002 < 2 ^ 32 ∧
    capabilityFlags 0x0001 0x0002 % 65536 = 0x0001 ∧
    capabilityFlags 0x0001 0x0002 / 65536 = 0x0002 ∧
    ((toUint32 (capabilityFlags 0x0001 0x0002) : Nat) : Int) = 0x00020001 ∧
    ∀ b0 b1 : Byte, 0 ≤ readU16 b0 b1 ∧ readU16 b0 b1 < 65536 :=
  capability_reassembly 0x0001 0x0002 (by norm_num) (by norm_num) (by norm_num) (by norm_num)

/-- C9, second auth-data region. For every declared length `L` from 1 to 255 the number
of bytes skipped is `max (L - 8) 13`: 13 up to `L = 21`, `L - 8` from `L = 21` on, and so
between 13 and 247; and for every payload with protocol version above 9 whose
auth-plugin-data-length byte, at index `a = s + 20`, is `L`, the plugin name printed is
the string `readNullTerminatedString` reads at index `a + 11 + max (L - 8) 13`. -/
theorem second_auth_region (L : Byte) (hL : 1 ≤ L.val) :
    authPluginDataPart2Len (toInt L) = max ((L.val : Int) - 8) 13 ∧
    (L.val ≤ 21 → authPluginDataPart2Len (toInt L) = 13) ∧
    (21 ≤ L.val → authPluginDataPart2Len (toInt L) = (L.val : Int) - 8) ∧
    13 ≤ authPluginDataPart2Len (toInt L) ∧ authPluginDataPart2Len (toInt L) ≤ 247 ∧
    ∀ (payload : List Byte) (v : Byte) (sv : List Byte) (s : Nat),
      payload[0]? = some v → 9 < v → readNullTerminatedString payload 1 = some (sv, s) →
      payload[s + 20]? = some L →
      ∃ pn off out,
        readNullTerminatedString payload
          (s + 20 + 11 + (max ((L.val : Int) - 8) 13).toNat) = some (pn, off) ∧
        checkMySQL_parse payload = some out ∧
        out.getLast? = some (Line.authPluginName pn) := by
  have hlt := L.isLt
  rw [authPluginDataPart2Len_eq]
  refine ⟨rfl, by omega, by omega, by omega, by omega, ?_⟩
  intro payload v sv s hv h9 hs ha
  have hlen : s + 21 ≤ payload.length := by
    by_contra hc
    rw [List.getElem?_eq_none (by omega)] at ha
    exact absurd ha (by simp)
  have hb : byteAt payload (s + 20) = L := by
    have := getElem?_eq_byteAt (show s + 20 < payload.length by omega)
    rw [ha] at this
    exact (Option.some.inj this).symm
  have hne : toInt L ≠ 0 := by
    unfold toInt
    omega
  refine ⟨_, _, _, readNullTerminatedString_eq _ _,
    checkMySQL_parse_eq_report payload v sv s hv (le_of_lt h9) hs, ?_⟩
  rw [report_full payload v sv s h9 hlen]
  simp only [headerLines, infoLines, pluginNameAt, hb, hne, ne_eq, not_false_eq_true, if_true,
    authPluginDataPart2Len_eq]
  simp [Nat.add_assoc]

/-- C9 at the declared lengths 5 and 21, and at a payload that declares 21. -/
theorem second_auth_region_witness :
    authPluginDataPart2Len (toInt 5) = 13 ∧ authPluginDataPart2Len (toInt 21) = 13 ∧
    ∃ pn off out,
      readNullTerminatedString
          (encodeHandshake 10 [56] 7 [1, 2, 3, 4, 5, 6, 7, 8] 0 1 33 2 21
            [0, 0, 0, 0, 0, 0, 0, 0, 0, 0] [9, 8, 7, 6, 5, 4, 3, 2, 1, 9, 8, 7, 0] [109])
          (3 + 20 + 11 + (max ((((21 : Byte).val : Nat) : Int) - 8) 13).toNat) =
        some (pn, off) ∧
      checkMySQL_parse
          (encodeHandshake 10 [56] 7 [1, 2, 3, 4, 5, 6, 7, 8] 0 1 33 2 21
            [0, 0, 0, 0, 0, 0, 0, 0, 0, 0] [9, 8, 7, 6, 5, 4, 3, 2, 1, 9, 8, 7, 0] [109]) =
        some out ∧
      out.getLast? = some (Line.authPluginName pn) :=
  ⟨(second_auth_region 5 (by decide)).2.1 (by decide),
    (second_auth_region 21 (by decide)).2.1 (by decide),
    (second_auth_region 21 (by decide)).2.2.2.2.2 _ 10 [56] 3 (by decide) (by decide)
      (by decide) (by decide)⟩

/-- C10, character-set lookup. For every character-set byte `c` the displayed name is
`unknown` exactly when `c` is not one of the eight keys of the table, and is the
non-empty table entry otherwise; and for every payload with protocol version above 9 and
at least 21 bytes after the server version, whatever `c` is, the parse prints the full
report with the line for `c` and its displayed name, and no error line. -/
theorem character_set_lookup (c : Byte) :
    (charSetName c = "unknown" ↔ c ∉ ([1, 8, 33, 45, 63, 83, 192, 255] : List Byte)) ∧
    (c ∈ ([1, 8, 33, 45, 63, 83, 192, 255] : List Byte) →
      charSetMap c = some (charSetName c) ∧ charSetName c ≠ "") ∧
    ∀ (payload : List Byte) (v : Byte) (sv : List Byte) (s : Nat),
      payload[0]? = some v → 9 < v → readNullTerminatedString payload 1 = some (sv, s) →
      s + 21 ≤ payload.length → payload[s + 15]? = some c →
      ∃ id caps st pn,
        checkMySQL_parse payload =
          some [Line.detected, Line.protocolVersion v, Line.serverVersion sv,
            Line.connectionId id, Line.handshakeInfo,
            Line.characterSet c (charSetName c), Line.capabilities caps,
            Line.statusFlags st, Line.authPluginName pn] := by
  refine ⟨?_, ?_, ?_⟩
  · exact charSetName_unknown_iff c
  · exact charSetMap_of_mem c
  · intro payload v sv s hv h9 hs hlen hc
    have hb : byteAt payload (s + 15) = c := by
      have := getElem?_eq_byteAt (show s + 15 < payload.length by omega)
      rw [hc] at this
      exact (Option.some.inj this).symm
    rw [checkMySQL_parse_eq_report payload v sv s hv (le_of_lt h9) hs,
      report_full payload v sv s h9 hlen]
    simp only [headerLines, infoLines, hb]
    exact ⟨_, _, _, _, rfl⟩

/-- C10 at the character-set byte 250, which is not in the table. -/
theorem character_set_lookup_witness :
    charSetName 250 = "unknown" ∧
    ∃ id caps st pn,
      checkMySQL_parse
          (encodeHandshake 10 [56] 7 [1, 2, 3, 4, 5, 6, 7, 8] 0 1 250 2 21
            [0, 0, 0, 0, 0, 0, 0, 0, 0, 0] [9, 8, 7, 6, 5, 4, 3, 2, 1, 9, 8, 7, 0] [109]) =
        some [Line.detected, Line.protocolVersion 10, Line.serverVersion [56],
          Line.connectionId id, Line.handshakeInfo,
          Line.characterSet 250 (charSetName 250), Line.capabilities caps,
          Line.statusFlags st, Line.authPluginName pn] :=
  ⟨(character_set_lookup 250).1.mpr (by decide),
    (character_set_lookup 250).2.2 _ 10 [56] 3 (by decide) (by decide) (by decide)
      (by decide) (by decide)⟩

/-- C11, framer success. For every stream of at least 4 bytes whose first three bytes give
`L = b0 + 256 * b1 + 65536 * b2` with `L ≥ 1` and which holds at least `4 + L` bytes,
`readMySQLPacket` succeeds with two reads, of 4 and of `L` bytes, and returns exactly the
`L` bytes at stream positions `4` to `4 + L - 1`; `L` is at most `2 ^ 24 - 1`, and the
stream is the header, the payload and what is left after `4 + L` bytes, in that order. -/
theorem framer_success (conn : Conn) (h4 : 4 ≤ conn.pending.length)
    (h1 : 1 ≤ headerLength conn.pending)
    (hlen : 4 + headerLength conn.pending ≤ conn.pending.length) :
    readMySQLPacket conn =
      (.ok ((conn.pending.drop 4).take (headerLength conn.pending)),
        { pending := conn.pending.drop (4 + headerLength conn.pending),
          reads := conn.reads ++ [4, headerLength conn.pending] }) ∧
    ((conn.pending.drop 4).take (headerLength conn.pending)).length =
      headerLength conn.pending ∧
    headerLength conn.pending ≤ 2 ^ 24 - 1 ∧
    (∀ i : Nat, i < headerLength conn.pending →
      ((conn.pending.drop 4).take (headerLength conn.pending))[i]? = conn.pending[4 + i]?) ∧
    conn.pending = conn.pending.take 4 ++
      (conn.pending.drop 4).take (headerLength conn.pending) ++
      conn.pending.drop (4 + headerLength conn.pending) := by
  have hlt := headerLength_lt conn.pending
  refine ⟨?_, ?_, by omega, ?_, ?_⟩
  · rw [readMySQLPacket_pos conn h4 h1, if_pos hlen]
  · rw [List.length_take, List.length_drop]
    omega
  · intro i hi
    rw [List.getElem?_take, if_pos hi, List.getElem?_drop]
  · rw [List.append_assoc, ← List.drop_drop, List.take_append_drop, List.take_append_drop]

/-- C11 at a stream that declares two bytes and holds three after the header. -/
theorem framer_success_witness :
    readMySQLPacket { pending := [2, 0, 0, 0, 10, 53, 7], reads := [] } =
      (.ok ((List.drop 4 [2, 0, 0, 0, 10, 53, 7]).take (headerLength [2, 0, 0, 0, 10, 53, 7])),
        { pending := List.drop (4 + headerLength [2, 0, 0, 0, 10, 53, 7]) [2, 0, 0, 0, 10, 53, 7],
          reads := [] ++ [4, headerLength [2, 0, 0, 0, 10, 53, 7]] }) ∧
    ((List.drop 4 [2, 0, 0, 0, 10, 53, 7]).take (headerLength [2, 0, 0, 0, 10, 53, 7])).length =
      headerLength [2, 0, 0, 0, 10, 53, 7] ∧
    headerLength [2, 0, 0, 0, 10, 53, 7] ≤ 2 ^ 24 - 1 ∧
    (∀ i : Nat, i < headerLength [2, 0, 0, 0, 10, 53, 7] →
      ((List.drop 4 [2, 0, 0, 0, 10, 53, 7]).take (headerLength [2, 0, 0, 0, 10, 53, 7]))[i]? =
        ([2, 0, 0, 0, 10, 53, 7] : List Byte)[4 + i]?) ∧
    ([2, 0, 0, 0, 10, 53, 7] : List Byte) = List.take 4 [2, 0, 0, 0, 10, 53, 7] ++
      (List.drop 4 [2, 0, 0, 0, 10, 53, 7]).take (headerLength [2, 0, 0, 0, 10, 53, 7]) ++
      List.drop (4 + headerLength [2, 0, 0, 0, 10, 53, 7]) [2, 0, 0, 0, 10, 53, 7] :=
  framer_success { pending := [2, 0, 0, 0, 10, 53, 7], reads := [] } (by decide) (by decide)
    (by decide)

/-- C12, framer zero length. For every stream with at least 4 bytes, `readMySQLPacket`
fails with the invalid-length error exactly when header bytes 0, 1 and 2 are all zero; the
decoded length is never negative; and in that case only the four header bytes are
consumed and the header read is the only read made. -/
theorem framer_zero_length (conn : Conn) (h4 : 4 ≤ conn.pending.length) :
    ((∃ length, (readMySQLPacket conn).1 = .error (.invalidLength length)) ↔
      (byteAt conn.pending 0 = 0 ∧ byteAt conn.pending 1 = 0 ∧ byteAt conn.pending 2 = 0)) ∧
    0 ≤ packetLength (conn.pending.take 4) ∧
    ((byteAt conn.pending 0 = 0 ∧ byteAt conn.pending 1 = 0 ∧ byteAt conn.pending 2 = 0) →
      readMySQLPacket conn =
        (.error (.invalidLength 0),
          { pending := conn.pending.drop 4, reads := conn.reads ++ [4] })) := by
  refine ⟨?_, ?_, ?_⟩
  · constructor
    · rintro ⟨length, hres⟩
      by_contra hne
      have h1 : 1 ≤ headerLength conn.pending := by
        have := (headerLength_eq_zero_iff conn.pending).not.mpr hne
        omega
      rw [readMySQLPacket_pos conn h4 h1] at hres
      split at hres <;> simp at hres
    · intro hz
      have h0 := (headerLength_eq_zero_iff conn.pending).mpr hz
      exact ⟨0, by rw [readMySQLPacket_zero conn h4 h0]⟩
  · rw [packetLength_eq]
    exact Int.ofNat_nonneg _
  · intro hz
    exact readMySQLPacket_zero conn h4 ((headerLength_eq_zero_iff conn.pending).mpr hz)

/-- C12 at a stream whose header declares the length 0. -/
theorem framer_zero_length_witness :
    ((∃ length, (readMySQLPacket { pending := [0, 0, 0, 1, 10, 53], reads := [] }).1 =
        .error (.invalidLength length)) ↔
      (byteAt [0, 0, 0, 1, 10, 53] 0 = 0 ∧ byteAt [0, 0, 0, 1, 10, 53] 1 = 0 ∧
        byteAt [0, 0, 0, 1, 10, 53] 2 = 0)) ∧
    0 ≤ packetLength (List.take 4 [0, 0, 0, 1, 10, 53]) ∧
    ((byteAt [0, 0, 0, 1, 10, 53] 0 = 0 ∧ byteAt [0, 0, 0, 1, 10, 53] 1 = 0 ∧
        byteAt [0, 0, 0, 1, 10, 53] 2 = 0) →
      readMySQLPacket { pending := [0, 0, 0, 1, 10, 53], reads := [] } =
        (.error (.invalidLength 0),
          { pending := List.drop 4 [0, 0, 0, 1, 10, 53], reads := [] ++ [4] })) :=
  framer_zero_length { pending := [0, 0, 0, 1, 10, 53], reads := [] } (by decide)

/-- C13, framer short input. For every stream that ends with fewer than 4 bytes,
`readMySQLPacket` fails with the reading-header error; and for every stream whose header
declares `L ≥ 1` but which ends with fewer than `L` bytes after the header, it fails with
the reading-payload error, so that no payload, partial or not, is returned. -/
theorem framer_short_input (conn : Conn) :
    (conn.pending.length < 4 →
      ∃ err, readMySQLPacket conn =
        (.error (.readingHeader err), { pending := [], reads := conn.reads ++ [4] })) ∧
    (4 ≤ conn.pending.length → 1 ≤ headerLength conn.pending →
      conn.pending.length < 4 + headerLength conn.pending →
      ∃ err, readMySQLPacket conn =
        (.error (.readingPayload err),
          { pending := [], reads := conn.reads ++ [4, headerLength conn.pending] })) := by
  constructor
  · intro h
    exact ⟨_, readMySQLPacket_short_header conn h⟩
  · intro h4 h1 hlt
    rw [readMySQLPacket_pos conn h4 h1, if_neg (by omega)]
    exact ⟨_, rfl⟩

/-- C13 at a stream of three bytes, and at a stream that declares five bytes and holds two. -/
theorem framer_short_input_witness :
    (∃ err, readMySQLPacket { pending := [5, 0, 0], reads := [] } =
        (.error (.readingHeader err), { pending := [], reads := [] ++ [4] })) ∧
    (∃ err, readMySQLPacket { pending := [5, 0, 0, 0, 10, 53], reads := [] } =
        (.error (.readingPayload err),
          { pending := [], reads := [] ++ [4, headerLength [5, 0, 0, 0, 10, 53]] })) :=
  ⟨(framer_short_input { pending := [5, 0, 0], reads := [] }).1 (by decide),
    (framer_short_input { pending := [5, 0, 0, 0, 10, 53], reads := [] }).2 (by decide)
      (by decide) (by decide)⟩

/-- C14, no out-of-bounds read. For every byte sequence given as payload the parse never
reaches the out-of-range case of a checked read, and neither does
`readNullTerminatedString` at any offset: its loop stops at an index between the offset
and the length of the payload, and the slice bounds it uses are in range. -/
theorem no_out_of_bounds_read (payload : List Byte) :
    (∃ out, checkMySQL_parse payload = some out) ∧
    (∀ offset : Nat, ∃ s e, readNullTerminatedString payload offset = some (s, e)) ∧
    (∀ offset : Nat, offset < payload.length →
      ∃ e s, scanNul payload (payload.length + 1) offset = some e ∧
        offset ≤ e ∧ e ≤ payload.length ∧ slice payload offset e = some s) := by
  refine ⟨?_, ?_, ?_⟩
  · cases payload with
    | nil => exact ⟨_, checkMySQL_parse_nil⟩
    | cons v rest =>
      by_cases h : v < 9
      · exact ⟨_, checkMySQL_parse_of_lt v rest h⟩
      · obtain ⟨sv, s, _, _, _, hp⟩ :=
          checkMySQL_parse_of_ge (v :: rest) v (by simp) (not_lt.mp h)
        exact ⟨_, hp⟩
  · intro offset
    exact ⟨_, _, readNullTerminatedString_eq payload offset⟩
  · intro offset hlt
    have hlen := untilNul_length_le (payload.drop offset)
    rw [List.length_drop] at hlen
    refine ⟨offset + (untilNul (payload.drop offset)).length,
      (payload.drop offset).take (offset + (untilNul (payload.drop offset)).length - offset),
      scanNul_eq payload _ offset (by omega) (by omega), by omega, by omega, ?_⟩
    unfold slice
    exact if_pos ⟨by omega, by omega⟩

/-- C15 as amended. When the parse ends with the too-short error of the version or of the
connection id, or with the unsupported-version error, that line is the only one printed
and the detection text does not occur in the output. When it ends with the too-short
error of capability flags low, character set, status flags, capability flags high or
auth plugin data length, the output is the detection line, the protocol version, server
version and connection id lines, and then the error line. -/
theorem decode_error_classification (payload : List Byte) (out : List Line) (e : Line)
    (h : checkMySQL_parse payload = some out) (hlast : out.getLast? = some e) :
    (isEarlyError e = true →
      out = [e] ∧ Line.detected ∉ out ∧
      ¬ ∃ before after, stdout out = before ++ detectedText ++ after) ∧
    (isDecodeError e = true → isEarlyError e = false →
      ∃ v sv id, out = [Line.detected, Line.protocolVersion v, Line.serverVersion sv,
        Line.connectionId id, e]) := by
  obtain ⟨hn1, hn2, hn3⟩ := detectedText_not_in_early
  have ne_tf : ∀ {b : Bool}, b = true → b = false → False := fun h1 h2 =>
    Bool.noConfusion (h1.symm.trans h2)
  have key : ∀ b a : List Byte, ∀ o : List Line,
      ¬ (detectedText <:+: stdout o) → stdout o ≠ b ++ detectedText ++ a := by
    intro b a o hno heq
    exact hno ⟨b, a, heq.symm⟩
  cases payload with
  | nil =>
    rw [checkMySQL_parse_nil] at h
    obtain rfl := Option.some.inj h
    obtain rfl : Line.payloadTooShort = e := by
      rw [List.getLast?_singleton] at hlast
      exact Option.some.inj hlast
    refine ⟨fun _ => ⟨rfl, by simp, ?_⟩, fun _ he => (ne_tf rfl he).elim⟩
    rintro ⟨b, a, heq⟩
    exact key b a _ hn1 heq
  | cons v rest =>
    by_cases hv : v < 9
    · rw [checkMySQL_parse_of_lt v rest hv] at h
      obtain rfl := Option.some.inj h
      obtain rfl : Line.unsupportedVersion v = e := by
        rw [List.getLast?_singleton] at hlast
        exact Option.some.inj hlast
      refine ⟨fun _ => ⟨rfl, by simp, ?_⟩, fun _ he => (ne_tf rfl he).elim⟩
      rintro ⟨b, a, heq⟩
      exact key b a _ (hn3 v hv) heq
    · obtain ⟨sv, s, _, _, _, hp⟩ :=
        checkMySQL_parse_of_ge (v :: rest) v (by simp) (not_lt.mp hv)
      rw [hp] at h
      obtain rfl := Option.some.inj h
      have hshort : report (v :: rest) v sv s = [Line.connIdTooShort] →
          (isEarlyError e = true →
            report (v :: rest) v sv s = [e] ∧ Line.detected ∉ report (v :: rest) v sv s ∧
            ¬ ∃ before after, stdout (report (v :: rest) v sv s) =
              before ++ detectedText ++ after) ∧
          (isDecodeError e = true → isEarlyError e = false →
            ∃ v' sv' id, report (v :: rest) v sv s = [Line.detected, Line.protocolVersion v',
              Line.serverVersion sv', Line.connectionId id, e]) := by
        intro hrep
        rw [hrep] at hlast ⊢
        obtain rfl : Line.connIdTooShort = e := by
          rw [List.getLast?_singleton] at hlast
          exact Option.some.inj hlast
        refine ⟨fun _ => ⟨rfl, by simp, ?_⟩, fun _ he => (ne_tf rfl he).elim⟩
        rintro ⟨b, a, heq⟩
        exact key b a _ hn2 heq
      have hlate : ∀ x : Line, isEarlyError x = false →
          report (v :: rest) v sv s = headerLines (v :: rest) v sv s ++ [x] →
          (isEarlyError e = true →
            report (v :: rest) v sv s = [e] ∧ Line.detected ∉ report (v :: rest) v sv s ∧
            ¬ ∃ before after, stdout (report (v :: rest) v sv s) =
              before ++ detectedText ++ after) ∧
          (isDecodeError e = true → isEarlyError e = false →
            ∃ v' sv' id, report (v :: rest) v sv s = [Line.detected, Line.protocolVersion v',
              Line.serverVersion sv', Line.connectionId id, e]) := by
        intro x hx hrep
        rw [hrep] at hlast ⊢
        obtain rfl : x = e := by
          rw [List.getLast?_concat] at hlast
          exact Option.some.inj hlast
        refine ⟨fun he => (ne_tf he hx).elim, fun _ _ => ?_⟩
        exact ⟨_, _, _, rfl⟩
      by_cases hv9 : v = 9
      · subst hv9
        rcases report_nine (9 :: rest) sv s with ⟨_, hrep⟩ | ⟨_, hrep⟩
        · exact hshort hrep
        · rw [hrep] at hlast ⊢
          have he : Line.connectionId (connID (byteAt (9 :: rest) s) (byteAt (9 :: rest) (s + 1))
              (byteAt (9 :: rest) (s + 2)) (byteAt (9 :: rest) (s + 3))) = e := by
            simpa [headerLines] using hlast
          subst he
          exact ⟨fun he => (ne_tf he rfl).elim, fun hd => (ne_tf hd rfl).elim⟩
      · have h9 : 9 < v := lt_of_le_of_ne (not_lt.mp hv) (fun h => hv9 h.symm)
        rcases report_cases (v :: rest) v sv s h9 with ⟨_, hrep⟩ | ⟨_, _, hrep⟩ | ⟨_, hrep⟩ |
          ⟨_, _, hrep⟩ | ⟨_, _, hrep⟩ | ⟨_, hrep⟩ | ⟨_, hrep⟩
        · exact hshort hrep
        · exact hlate Line.capLowTooShort rfl hrep
        · exact hlate Line.charSetTooShort rfl hrep
        · exact hlate Line.statusTooShort rfl hrep
        · exact hlate Line.capHighTooShort rfl hrep
        · exact hlate Line.authLenTooShort rfl hrep
        · rw [hrep] at hlast ⊢
          have he : Line.authPluginName (pluginNameAt (v :: rest) s) = e := by
            simpa [headerLines, infoLines] using hlast
          subst he
          exact ⟨fun he => (ne_tf he rfl).elim, fun hd => (ne_tf hd rfl).elim⟩

/-- C15 as amended, at a payload that ends inside the connection id. -/
theorem decode_error_classification_witness :
    (isEarlyError Line.connIdTooShort = true →
      [Line.connIdTooShort] = [Line.connIdTooShort] ∧
      Line.detected ∉ [Line.connIdTooShort] ∧
      ¬ ∃ before after, stdout [Line.connIdTooShort] = before ++ detectedText ++ after) ∧
    (isDecodeError Line.connIdTooShort = true → isEarlyError Line.connIdTooShort = false →
      ∃ v sv id, [Line.connIdTooShort] = [Line.detected, Line.protocolVersion v,
        Line.serverVersion sv, Line.connectionId id, Line.connIdTooShort]) :=
  decode_error_classification [10, 56, 0, 1, 2] [Line.connIdTooShort] Line.connIdTooShort
    (by decide) (by decide)

/-- C15 as stated fails: on a payload that ends right after the connection id the parse
ends with the too-short error of capability flags low, and the detection line was
printed before it. -/
theorem decode_error_classification_counterexample :
    checkMySQL_parse [10, 56, 0, 1, 2, 3, 4] =
      some [Line.detected, Line.protocolVersion 10, Line.serverVersion [56],
        Line.connectionId 0x04030201, Line.capLowTooShort] ∧
    isDecodeError Line.capLowTooShort = true ∧
    Line.detected ∈ [Line.detected, Line.protocolVersion 10, Line.serverVersion [56],
        Line.connectionId 0x04030201, Line.capLowTooShort] ∧
    ∃ before after,
      stdout [Line.detected, Line.protocolVersion 10, Line.serverVersion [56],
        Line.connectionId 0x04030201, Line.capLowTooShort] =
        before ++ detectedText ++ after := by
  refine ⟨by decide, by decide, by decide, [], ?_⟩
  refine ⟨(stdout [Line.detected, Line.protocolVersion 10, Line.serverVersion [56],
        Line.connectionId 0x04030201, Line.capLowTooShort]).drop 21, ?_⟩
  decide

/-- C16, exact truncation thresholds. For every payload with first byte above 9, with `s`
the cursor after the server version and `n = len(payload) - s`, the parse ends with the
connection-id error iff `n < 4`, the capability-flags-low error iff `4 ≤ n < 15`, the
character-set error iff `n = 15`, the status-flags error iff `16 ≤ n < 18`, the
capability-flags-high error iff `18 ≤ n < 20`, the auth-plugin-data-length error iff
`n = 20`, and prints the final report iff `n ≥ 21`. -/
theorem truncation_thresholds (payload : List Byte) (v : Byte) (sv : List Byte) (s : Nat)
    (hv : payload[0]? = some v) (h9 : 9 < v)
    (hs : readNullTerminatedString payload 1 = some (sv, s)) :
    ∃ out, checkMySQL_parse payload = some out ∧ s ≤ payload.length ∧
      (out.getLast? = some Line.connIdTooShort ↔ payload.length - s < 4) ∧
      (out.getLast? = some Line.capLowTooShort ↔
        4 ≤ payload.length - s ∧ payload.length - s < 15) ∧
      (out.getLast? = some Line.charSetTooShort ↔ payload.length - s = 15) ∧
      (out.getLast? = some Line.statusTooShort ↔
        16 ≤ payload.length - s ∧ payload.length - s < 18) ∧
      (out.getLast? = some Line.capHighTooShort ↔
        18 ≤ payload.length - s ∧ payload.length - s < 20) ∧
      (out.getLast? = some Line.authLenTooShort ↔ payload.length - s = 20) ∧
      (Line.handshakeInfo ∈ out ↔ 21 ≤ payload.length - s) := by
  have hlen : 1 ≤ payload.length := by
    by_contra hc
    rw [List.getElem?_eq_none (by omega)] at hv
    exact absurd hv (by simp)
  obtain ⟨_, hsle⟩ := cursor_le_length payload sv 1 s hlen hs
  refine ⟨_, checkMySQL_parse_eq_report payload v sv s hv (le_of_lt h9) hs, hsle, ?_⟩
  rcases report_cases payload v sv s h9 with ⟨h, hrep⟩ | ⟨h, h', hrep⟩ | ⟨h, hrep⟩ |
    ⟨h, h', hrep⟩ | ⟨h, h', hrep⟩ | ⟨h, hrep⟩ | ⟨h, hrep⟩
  · rw [hrep, List.getLast?_singleton]
    refine ⟨?_, ?_, ?_, ?_, ?_, ?_, ?_⟩ <;> simp <;> omega
  · rw [hrep, List.getLast?_concat]
    refine ⟨?_, ?_, ?_, ?_, ?_, ?_, ?_⟩ <;> simp [headerLines] <;> omega
  · rw [hrep, List.getLast?_concat]
    refine ⟨?_, ?_, ?_, ?_, ?_, ?_, ?_⟩ <;> simp [headerLines] <;> omega
  · rw [hrep, List.getLast?_concat]
    refine ⟨?_, ?_, ?_, ?_, ?_, ?_, ?_⟩ <;> simp [headerLines] <;> omega
  · rw [hrep, List.getLast?_concat]
    refine ⟨?_, ?_, ?_, ?_, ?_, ?_, ?_⟩ <;> simp [headerLines] <;> omega
  · rw [hrep, List.getLast?_concat]
    refine ⟨?_, ?_, ?_, ?_, ?_, ?_, ?_⟩ <;> simp [headerLines] <;> omega
  · rw [hrep]
    have hl : (headerLines payload v sv s ++ infoLines payload s).getLast? =
        some (Line.authPluginName (pluginNameAt payload s)) := by
      simp [headerLines, infoLines]
    rw [hl]
    refine ⟨?_, ?_, ?_, ?_, ?_, ?_, ?_⟩ <;> simp [headerLines, infoLines] <;> omega

/-- C16 at a payload with five bytes after the server version. -/
theorem truncation_thresholds_witness :
    ∃ out, checkMySQL_parse [10, 56, 0, 1, 2, 3, 4, 5] = some out ∧
      3 ≤ ([10, 56, 0, 1, 2, 3, 4, 5] : List Byte).length ∧
      (out.getLast? = some Line.connIdTooShort ↔
        ([10, 56, 0, 1, 2, 3, 4, 5] : List Byte).length - 3 < 4) ∧
      (out.getLast? = some Line.capLowTooShort ↔
        4 ≤ ([10, 56, 0, 1, 2, 3, 4, 5] : List Byte).length - 3 ∧
          ([10, 56, 0, 1, 2, 3, 4, 5] : List Byte).length - 3 < 15) ∧
      (out.getLast? = some Line.charSetTooShort ↔
        ([10, 56, 0, 1, 2, 3, 4, 5] : List Byte).length - 3 = 15) ∧
      (out.getLast? = some Line.statusTooShort ↔
        16 ≤ ([10, 56, 0, 1, 2, 3, 4, 5] : List Byte).length - 3 ∧
          ([10, 56, 0, 1, 2, 3, 4, 5] : List Byte).length - 3 < 18) ∧
      (out.getLast? = some Line.capHighTooShort ↔
        18 ≤ ([10, 56, 0, 1, 2, 3, 4, 5] : List Byte).length - 3 ∧
          ([10, 56, 0, 1, 2, 3, 4, 5] : List Byte).length - 3 < 20) ∧
      (out.getLast? = some Line.authLenTooShort ↔
        ([10, 56, 0, 1, 2, 3, 4, 5] : List Byte).length - 3 = 20) ∧
      (Line.handshakeInfo ∈ out ↔ 21 ≤ ([10, 56, 0, 1, 2, 3, 4, 5] : List Byte).length - 3) :=
  truncation_thresholds [10, 56, 0, 1, 2, 3, 4, 5] 10 [56] 3 (by decide) (by decide) (by decide)

/-- C17, unchecked trailing skip. For every payload with first byte above 9, at least 21
bytes after the server version, a non-zero auth-plugin-data length `L` at index
`a = s + 20`, and a length of at most `a + 11 + max (L - 8) 13`, the parse does not
fail: the plugin name read is the empty string, and the full report is printed with it,
every other field being the value of the payload bytes at its place (connection id from
the four bytes at `s`, capabilities from the halves at `s + 13` and `s + 18`, character
set from the byte at `s + 15`, status from the two bytes at `s + 16`). -/
theorem unchecked_trailing_skip (payload : List Byte) (v : Byte) (sv : List Byte) (s : Nat)
    (L : Byte) (hv : payload[0]? = some v) (h9 : 9 < v)
    (hs : readNullTerminatedString payload 1 = some (sv, s))
    (hlen : s + 21 ≤ payload.length) (hL : payload[s + 20]? = some L) (hL0 : L ≠ 0)
    (hend : payload.length ≤ s + 20 + 11 + (max ((L.val : Int) - 8) 13).toNat) :
    readNullTerminatedString payload (s + 20 + 11 + (max ((L.val : Int) - 8) 13).toNat) =
      some ([], s + 20 + 11 + (max ((L.val : Int) - 8) 13).toNat) ∧
    ∃ c0 c1 c2 c3 l0 l1 cs s0 s1 h0 h1 : Byte,
      payload[s]? = some c0 ∧ payload[s + 1]? = some c1 ∧ payload[s + 2]? = some c2 ∧
      payload[s + 3]? = some c3 ∧ payload[s + 13]? = some l0 ∧ payload[s + 14]? = some l1 ∧
      payload[s + 15]? = some cs ∧ payload[s + 16]? = some s0 ∧ payload[s + 17]? = some s1 ∧
      payload[s + 18]? = some h0 ∧ payload[s + 19]? = some h1 ∧
      checkMySQL_parse payload =
        some [Line.detected, Line.protocolVersion v, Line.serverVersion sv,
          Line.connectionId
            ((c0.val + 256 * c1.val + 65536 * c2.val + 16777216 * c3.val : Nat) : Int),
          Line.handshakeInfo, Line.characterSet cs (charSetName cs),
          Line.capabilities (l0.val + 256 * l1.val + 65536 * (h0.val + 256 * h1.val)),
          Line.statusFlags (s0.val + 256 * s1.val), Line.authPluginName []] := by
  have hb : byteAt payload (s + 20) = L := by
    have := getElem?_eq_byteAt (show s + 20 < payload.length by omega)
    rw [hL] at this
    exact (Option.some.inj this).symm
  have hne : toInt L ≠ 0 := by
    have : L.val ≠ 0 := fun h => hL0 (Fin.ext h)
    unfold toInt
    omega
  have hdrop : payload.drop (s + 20 + 11 + (max ((L.val : Int) - 8) 13).toNat) = [] :=
    List.drop_eq_nil_of_le hend
  constructor
  · rw [readNullTerminatedString_eq, hdrop]
    simp only [untilNul, List.length_nil, Nat.add_zero]
    rw [if_neg (by omega), Nat.max_eq_left hend]
  · have hpn : pluginNameAt payload s = [] := by
      unfold pluginNameAt
      rw [hb, if_pos hne, authPluginDataPart2Len_eq]
      have e31 : s + 31 + (max ((L.val : Int) - 8) 13).toNat =
          s + 20 + 11 + (max ((L.val : Int) - 8) 13).toNat := by omega
      rw [e31, hdrop]
      rfl
    refine ⟨byteAt payload s, byteAt payload (s + 1), byteAt payload (s + 2),
      byteAt payload (s + 3), byteAt payload (s + 13), byteAt payload (s + 14),
      byteAt payload (s + 15), byteAt payload (s + 16), byteAt payload (s + 17),
      byteAt payload (s + 18), byteAt payload (s + 19),
      getElem?_eq_byteAt (by omega), getElem?_eq_byteAt (by omega),
      getElem?_eq_byteAt (by omega), getElem?_eq_byteAt (by omega),
      getElem?_eq_byteAt (by omega), getElem?_eq_byteAt (by omega),
      getElem?_eq_byteAt (by omega), getElem?_eq_byteAt (by omega),
      getElem?_eq_byteAt (by omega), getElem?_eq_byteAt (by omega),
      getElem?_eq_byteAt (by omega), ?_⟩
    rw [checkMySQL_parse_full payload v sv s hv h9 hs hlen, hpn]

/-- C17 at a payload that declares the length 21 and ends inside the reserved region: the
report carries connection id `0x04030201`, character set 33, capabilities `0xFFFFF7FF`,
status 2 and an empty plugin name. -/
theorem unchecked_trailing_skip_witness :
    readNullTerminatedString
        [10, 56, 0, 1, 2, 3, 4, 1, 2, 3, 4, 5, 6, 7, 8, 0, 255, 247, 33, 2, 0, 255, 255, 21, 0, 0]
        (3 + 20 + 11 + (max ((((21 : Byte).val : Nat) : Int) - 8) 13).toNat) =
      some ([], 3 + 20 + 11 + (max ((((21 : Byte).val : Nat) : Int) - 8) 13).toNat) ∧
    checkMySQL_parse
        [10, 56, 0, 1, 2, 3, 4, 1, 2, 3, 4, 5, 6, 7, 8, 0, 255, 247, 33, 2, 0, 255, 255, 21,
          0, 0] =
      some [Line.detected, Line.protocolVersion 10, Line.serverVersion [56],
        Line.connectionId 0x04030201, Line.handshakeInfo,
        Line.characterSet 33 "utf8_general_ci", Line.capabilities 0xFFFFF7FF,
        Line.statusFlags 2, Line.authPluginName []] := by
  obtain ⟨hread, c0, c1, c2, c3, l0, l1, cs, s0, s1, h0, h1, e0, e1, e2, e3, e13, e14, e15,
      e16, e17, e18, e19, hp⟩ :=
    unchecked_trailing_skip
      [10, 56, 0, 1, 2, 3, 4, 1, 2, 3, 4, 5, 6, 7, 8, 0, 255, 247, 33, 2, 0, 255, 255, 21, 0, 0]
      10 [56] 3 21 (by decide) (by decide) (by decide) (by decide) (by decide) (by decide)
      (by decide)
  obtain rfl : c0 = 1 := (Option.some.inj e0).symm
  obtain rfl : c1 = 2 := (Option.some.inj e1).symm
  obtain rfl : c2 = 3 := (Option.some.inj e2).symm
  obtain rfl : c3 = 4 := (Option.some.inj e3).symm
  obtain rfl : l0 = 255 := (Option.some.inj e13).symm
  obtain rfl : l1 = 247 := (Option.some.inj e14).symm
  obtain rfl : cs = 33 := (Option.some.inj e15).symm
  obtain rfl : s0 = 2 := (Option.some.inj e16).symm
  obtain rfl : s1 = 0 := (Option.some.inj e17).symm
  obtain rfl : h0 = 255 := (Option.some.inj e18).symm
  obtain rfl : h1 = 255 := (Option.some.inj e19).symm
  exact ⟨hread, hp⟩

/-- C18, evaluation at the failing input. On a handshake whose capability flags have every
bit set except bit 19 (`CLIENT_PLUGIN_AUTH`, `0x00080000`) and whose auth-plugin-data
length is 21, the parse reads and prints the plugin name `my`, which is not the `N/A`
sentinel. -/
theorem plugin_name_without_plugin_auth :
    checkMySQL_parse
        (encodeHandshake 10 [56, 46, 48] 7 [1, 2, 3, 4, 5, 6, 7, 8] 0 0xFFF7FFFF 33 2 21
          [0, 0, 0, 0, 0, 0, 0, 0, 0, 0] [9, 8, 7, 6, 5, 4, 3, 2, 1, 9, 8, 7, 0]
          [109, 121]) =
      some [Line.detected, Line.protocolVersion 10, Line.serverVersion [56, 46, 48],
        Line.connectionId 7, Line.handshakeInfo, Line.characterSet 33 "utf8_general_ci",
        Line.capabilities 0xFFF7FFFF, Line.statusFlags 2, Line.authPluginName [109, 121]] ∧
    0xFFF7FFFF &&& 0x00080000 = 0 ∧
    ([109, 121] : List Byte) ≠ ascii "N/A" := by
  decide

/-- C19, unterminated server version. For every payload with first byte at least 9 and no
zero byte at any index from 1 on, `readNullTerminatedString` moves the cursor to the
length of the payload and the parse prints the connection-id error only. Equivalently,
every payload for which the detection line is printed holds a zero byte at some index
from 1 on, with at least four bytes after the first such index. -/
theorem unterminated_server_version (payload : List Byte) :
    (∀ v : Byte, payload[0]? = some v → 9 ≤ v →
      (∀ i : Nat, 1 ≤ i → payload[i]? ≠ some 0) →
      readNullTerminatedString payload 1 = some (payload.drop 1, payload.length) ∧
      checkMySQL_parse payload = some [Line.connIdTooShort]) ∧
    (∀ out, checkMySQL_parse payload = some out → Line.detected ∈ out →
      ∃ k : Nat, 1 ≤ k ∧ payload[k]? = some 0 ∧
        (∀ i : Nat, 1 ≤ i → i < k → payload[i]? ≠ some 0) ∧ k + 5 ≤ payload.length) := by
  constructor
  · intro v hv h9 hno
    have hlen : 1 ≤ payload.length := by
      by_contra hc
      rw [List.getElem?_eq_none (by omega)] at hv
      exact absurd hv (by simp)
    have hs : readNullTerminatedString payload 1 = some (payload.drop 1, payload.length) := by
      rw [readNullTerminatedString_of_no_nul payload 1 hno, Nat.max_eq_right hlen]
    refine ⟨hs, ?_⟩
    rw [checkMySQL_parse_eq_report payload v _ _ hv h9 hs]
    unfold report
    rw [if_pos (by omega)]
  · intro out hp hdet
    cases payload with
    | nil =>
      rw [checkMySQL_parse_nil] at hp
      obtain rfl := Option.some.inj hp
      simp at hdet
    | cons v rest =>
      by_cases hv : v < 9
      · rw [checkMySQL_parse_of_lt v rest hv] at hp
        obtain rfl := Option.some.inj hp
        simp at hdet
      · have hs := readNullTerminatedString_eq (v :: rest) 1
        rw [checkMySQL_parse_eq_report (v :: rest) v _ _ (by simp) (not_lt.mp hv) hs] at hp
        obtain rfl := Option.some.inj hp
        simp only [List.drop_succ_cons, List.drop_zero, List.length_cons] at hdet hs ⊢
        by_cases hterm : 1 + (untilNul rest).length < rest.length + 1
        · rw [if_pos hterm] at hdet
          have h4 : 1 + (untilNul rest).length + 1 + 4 ≤ rest.length + 1 := by
            by_contra hc
            unfold report at hdet
            rw [if_pos (by simp only [List.length_cons]; omega)] at hdet
            simp at hdet
          refine ⟨1 + (untilNul rest).length, by omega, ?_, ?_, by omega⟩
          · rw [Nat.add_comm, List.getElem?_cons_succ]
            exact getElem?_untilNul_length rest (by omega)
          · intro i hi1 hik
            obtain ⟨j, rfl⟩ : ∃ j, i = j + 1 := ⟨i - 1, by omega⟩
            rw [List.getElem?_cons_succ]
            exact getElem?_ne_zero_of_lt_untilNul rest j (by omega)
        · rw [if_neg hterm] at hdet
          unfold report at hdet
          rw [if_pos (by simp only [List.length_cons]; omega)] at hdet
          simp at hdet

/-- C19 at a payload without a zero byte, and at a detected payload. -/
theorem unterminated_server_version_witness :
    (readNullTerminatedString [10, 56, 46, 48, 1, 2, 3, 4, 5] 1 =
        some (List.drop 1 [10, 56, 46, 48, 1, 2, 3, 4, 5],
          ([10, 56, 46, 48, 1, 2, 3, 4, 5] : List Byte).length) ∧
      checkMySQL_parse [10, 56, 46, 48, 1, 2, 3, 4, 5] = some [Line.connIdTooShort]) ∧
    ∃ k : Nat, 1 ≤ k ∧ ([10, 56, 46, 48, 0, 1, 2, 3, 4] : List Byte)[k]? = some 0 ∧
      (∀ i : Nat, 1 ≤ i → i < k → ([10, 56, 46, 48, 0, 1, 2, 3, 4] : List Byte)[i]? ≠ some 0) ∧
      k + 5 ≤ ([10, 56, 46, 48, 0, 1, 2, 3, 4] : List Byte).length :=
  ⟨(unterminated_server_version [10, 56, 46, 48, 1, 2, 3, 4, 5]).1 10 (by decide) (by decide)
      (by
        intro i h1
        by_cases hi : i < 9
        · interval_cases i <;> decide
        · rw [List.getElem?_eq_none (by simpa using by omega)]
          simp),
    (unterminated_server_version [10, 56, 46, 48, 0, 1, 2, 3, 4]).2 _ rfl (by decide)⟩

/-- C20, framed payloads are not empty. Every payload that `readMySQLPacket` returns
without error has a length of at least 1, equal to the decoded header length; so the
read of `payload[0]` is in range and the parse of it never prints the
payload-too-short line. -/
theorem framed_payload_nonempty (conn conn' : Conn) (payload : List Byte)
    (h : readMySQLPacket conn = (.ok payload, conn')) :
    1 ≤ payload.length ∧
    (payload.length : Int) = packetLength (conn.pending.take 4) ∧
    payload.length ≤ 2 ^ 24 - 1 ∧
    (∃ v, payload[0]? = some v) ∧
    ∃ out, checkMySQL_parse payload = some out ∧ Line.payloadTooShort ∉ out := by
  have hlt := headerLength_lt conn.pending
  have h4 : 4 ≤ conn.pending.length := by
    by_contra hc
    rw [readMySQLPacket_short_header conn (by omega)] at h
    simp at h
  have h1 : 1 ≤ headerLength conn.pending := by
    by_contra hc
    rw [readMySQLPacket_zero conn h4 (by omega)] at h
    simp at h
  rw [readMySQLPacket_pos conn h4 h1] at h
  by_cases hle : 4 + headerLength conn.pending ≤ conn.pending.length
  · rw [if_pos hle] at h
    have hp : (conn.pending.drop 4).take (headerLength conn.pending) = payload := by
      have := (Prod.mk.inj h).1
      exact Except.ok.inj this
    have hlen : payload.length = headerLength conn.pending := by
      rw [← hp, List.length_take, List.length_drop]
      omega
    have hne : payload ≠ [] := by
      intro hnil
      rw [hnil] at hlen
      simp at hlen
      omega
    obtain ⟨v, rest, rfl⟩ := List.exists_cons_of_ne_nil hne
    refine ⟨by omega, ?_, by omega, ⟨v, by simp⟩, ?_⟩
    · rw [packetLength_eq, headerLength_take, hlen]
    · by_cases hv : v < 9
      · exact ⟨_, checkMySQL_parse_of_lt v rest hv, by simp⟩
      · obtain ⟨sv, s, _, _, _, hpar⟩ :=
          checkMySQL_parse_of_ge (v :: rest) v (by simp) (not_lt.mp hv)
        exact ⟨_, hpar, payloadTooShort_not_mem_report _ _ _ _⟩
  · rw [if_neg hle] at h
    simp at h

/-- C20 at a stream that frames the two-byte payload `10, 53`. -/
theorem framed_payload_nonempty_witness :
    1 ≤ ([10, 53] : List Byte).length ∧
    ((([10, 53] : List Byte).length : Nat) : Int) =
      packetLength (List.take 4 [2, 0, 0, 0, 10, 53, 7]) ∧
    ([10, 53] : List Byte).length ≤ 2 ^ 24 - 1 ∧
    (∃ v, ([10, 53] : List Byte)[0]? = some v) ∧
    ∃ out, checkMySQL_parse [10, 53] = some out ∧ Line.payloadTooShort ∉ out :=
  framed_payload_nonempty { pending := [2, 0, 0, 0, 10, 53, 7], reads := [] }
    { pending := [7], reads := [4, 2] } [10, 53] rfl

end MySQLDetector
